import Mathlib

/-! Hotel management system (`src/Hotel.cpp`).

A shallow embedding of the record-keeping core of `Hotel.cpp` and theorems about it.

Conventions of the embedding.

* `int` is carried as `Int`: the program stores and compares its integers and never
  computes with them, so no overflow can occur. `double` is carried as `Float` and
  `std::string` as `String`.
* A C++ member function that mutates `*this` and may throw becomes a function into
  `Effect`: the object after the call (also when the call throws), the text the call
  wrote to `cout`, and either the returned value or the exception that left the call.
* `vector<Room*> rooms` holds one heap object per `addRoom` and never removes one, so a
  `Room*` is the position of its pointee in `rooms`; `Reservation::room` is that position.
* `vector<Employee*> employees` holds pointers handed in by the caller; every caller in
  the program passes a fresh `new Employee`, so the pointees are distinct objects and
  the vector is carried as the list of pointees.
-/

/-! ## Console colour codes (`#define`s) -/

/-- The `reset` escape sequence. -/
def reset : String := "\x1b[0m"

/-- The `green` escape sequence. -/
def green : String := "\x1b[32m"

/-- The newline written by `std::endl`. -/
def endl : String := "\n"

/-! ## Exceptions and effects -/

/-- Values that the program throws: `HotelException` (a `runtime_error`),
`std::invalid_argument`, and a bare C string literal (`const char*`). -/
inductive Exception where
  | HotelException (what : String)
  | invalid_argument (what : String)
  | c_str (value : String)
deriving DecidableEq, Repr

/-- Outcome of running a member function on an object of type `σ`. -/
structure Effect (σ α : Type) where
  /-- The object after the call; mutations made before a `throw` persist. -/
  state : σ
  /-- Text written to `cout` by the call. -/
  cout : String
  /-- The value returned, or the exception that propagated to the caller. -/
  result : Except Exception α

/-- Linear search `std::find_if(xs.begin(), xs.end(), p)`: the position of the first
element satisfying `p`, or `none` for the `end()` iterator. -/
def find_if {α : Type} (p : α → Bool) : (xs : List α) → Option (Fin xs.length)
  | [] => none
  | x :: xs => if p x then some ⟨0, Nat.succ_pos _⟩ else (find_if p xs).map Fin.succ

/-! ## Entities -/

/-- Class `Guest` (with the `Person` base fields). -/
structure Guest where
  name : String
  age : Int
  guestID : Int
deriving DecidableEq, Repr

/-- `Guest::getGuestID`. -/
def Guest.getGuestID (g : Guest) : Int := g.guestID

/-- `Person::display`: the text it writes to `cout`. -/
def Person.display (name : String) (age : Int) : String :=
  "Name: " ++ name ++ ", Age: " ++ toString age ++ endl

/-- `Guest::display`: the text it writes to `cout`. -/
def Guest.display (g : Guest) : String :=
  "Guest ID: " ++ toString g.guestID ++ ", " ++ Person.display g.name g.age

/-- Class `Employee` (with the `Person` base fields). -/
structure Employee where
  name : String
  age : Int
  employeeID : Int
  position : String
deriving DecidableEq, Repr

/-- `Employee::getEmployeeID`. -/
def Employee.getEmployeeID (e : Employee) : Int := e.employeeID

/-- `Employee::setPosition`. -/
def Employee.setPosition (e : Employee) (newPosition : String) : Employee :=
  { e with position := newPosition }

/-- Class `Room`. -/
structure Room where
  roomNumber : Int
  roomType : String
  isBooked : Bool
  guestID : Int
deriving DecidableEq, Repr

/-- Constructor `Room::Room(number, type)`. -/
def Room.ctor (number : Int) (type : String) : Room :=
  { roomNumber := number, roomType := type, isBooked := false, guestID := -1 }

/-- `Room::bookRoom`. -/
def Room.bookRoom (r : Room) : Effect Room Unit :=
  if r.isBooked then
    ⟨r, "", .error (.HotelException "Room is already booked! \n \n")⟩
  else
    ⟨{ r with isBooked := true }, "", .ok ()⟩

/-- `Room::checkoutRoom`. -/
def Room.checkoutRoom (r : Room) : Effect Room Unit :=
  if !r.isBooked then
    ⟨r, "", .error (.HotelException
      "Room is already available, can't checkout from an unoccupied room! \n \n")⟩
  else
    ⟨{ r with isBooked := false, guestID := -1 }, "", .ok ()⟩

/-- `Room::getBookingStatus`. -/
def Room.getBookingStatus (r : Room) : Bool := r.isBooked

/-- `Room::getRoomNumber`. -/
def Room.getRoomNumber (r : Room) : Int := r.roomNumber

/-- `Room::getRoomType`. -/
def Room.getRoomType (r : Room) : String := r.roomType

/-- `Room::getGuestID`. -/
def Room.getGuestID (r : Room) : Int := r.guestID

/-- `Room::assignGuest`. -/
def Room.assignGuest (r : Room) (guestID : Int) : Room :=
  { r with guestID := guestID }

/-- Class `Reservation`; `room` is the `Room*`, a position in `Hotel.rooms`. -/
structure Reservation where
  guest : Guest
  room : Nat
  duration : Int
deriving DecidableEq, Repr

/-- Constructor `Reservation::Reservation(g, r, d)`, run on the room `pointee` that `r`
points to. The state of the effect is the pointee after the constructor body. The
handler catches the `HotelException` of `bookRoom` and throws the literal `""`. -/
def Reservation.ctor (g : Guest) (r : Nat) (d : Int) (pointee : Room) :
    Effect Room Reservation :=
  let booked := pointee.bookRoom
  match booked.result with
  | .ok () =>
    ⟨booked.state.assignGuest g.getGuestID, booked.cout,
      .ok { guest := g, room := r, duration := d }⟩
  | .error (.HotelException _) => ⟨booked.state, booked.cout, .error (.c_str "")⟩
  | .error ex => ⟨booked.state, booked.cout, .error ex⟩

/-- Class `FoodOrder`. -/
structure FoodOrder where
  guest : Guest
  foodItem : String
  quantity : Int
  price : Float

/-- The fields of `struct tm` that `displayDayTime` reads from `localtime`. -/
structure tm where
  tm_mday : Int
  tm_mon : Int
  tm_year : Int
  tm_hour : Int
  tm_min : Int
  tm_sec : Int

/-- `FoodOrder::placeOrder`, a `const` member: it only compares and may throw. -/
def FoodOrder.placeOrder (o : FoodOrder) (guestID : Int) : Effect FoodOrder Unit :=
  if guestID != o.guest.getGuestID then
    ⟨o, "", .error (.invalid_argument
      "Error: Guest ID not found. Unable to place the order. \n \n")⟩
  else
    ⟨o, "", .ok ()⟩

/-- `FoodOrder::displayDayTime`: the text written for the clock reading `localTime`. -/
def FoodOrder.displayDayTime (localTime : tm) : String :=
  "Date: " ++ toString localTime.tm_mday ++ "-" ++ toString (localTime.tm_mon + 1) ++ "-" ++
    toString (localTime.tm_year + 1900) ++ " " ++
  ("Time: " ++ toString localTime.tm_hour ++ ":" ++ toString localTime.tm_min ++ ":" ++
    toString localTime.tm_sec ++ "\n \n" ++ endl)

/-- `FoodOrder::display`. The stream formatting of a `double` (`showDouble`) and the clock
reading (`localTime`) come from outside the program and are parameters. The handler catches
`invalid_argument` only, prints its message and returns. -/
def FoodOrder.display (o : FoodOrder) (showDouble : Float → String) (localTime : tm) :
    Effect FoodOrder Unit :=
  let header := "Food Order for: " ++ endl
  let checked := o.placeOrder o.guest.getGuestID
  match checked.result with
  | .error (.invalid_argument what) => ⟨checked.state, header ++ checked.cout ++ (what ++ endl), .ok ()⟩
  | .error ex => ⟨checked.state, header ++ checked.cout, .error ex⟩
  | .ok () =>
    ⟨checked.state,
      header ++ checked.cout ++ o.guest.display ++
        ("Food Item: " ++ o.foodItem ++ ", Quantity: " ++ toString o.quantity ++
          ", Price: Rs. " ++ showDouble o.price ++ endl) ++
        FoodOrder.displayDayTime localTime,
      .ok ()⟩

/-- Class `Hotel`. -/
structure Hotel where
  hotelName : String
  rooms : List Room
  employees : List Employee
  reservations : List Reservation
  foodOrders : List FoodOrder

/-- Constructor `Hotel::Hotel(name)`: all four vectors start empty. -/
def Hotel.ctor (name : String) : Hotel :=
  { hotelName := name, rooms := [], employees := [], reservations := [], foodOrders := [] }

/-- `Hotel::addRoom`. -/
def Hotel.addRoom (h : Hotel) (roomNumber : Int) (roomType : String) : Effect Hotel Unit :=
  ⟨{ h with rooms := h.rooms ++ [Room.ctor roomNumber roomType] }, "", .ok ()⟩

/-- `Hotel::addEmployee`. -/
def Hotel.addEmployee (h : Hotel) (employee : Employee) : Effect Hotel Unit :=
  ⟨{ h with employees := h.employees ++ [employee] }, "", .ok ()⟩

/-- `Hotel::findRoom`: the pointer to the first room with the number, or `nullptr`. -/
def Hotel.findRoom (h : Hotel) (roomNumber : Int) : Option (Fin h.rooms.length) :=
  find_if (fun room => room.getRoomNumber == roomNumber) h.rooms

/-- `Hotel::makeReservation`. The `push_back` runs only when the constructor returns;
the handler catches `HotelException` only. -/
def Hotel.makeReservation (h : Hotel) (guest : Guest) (roomNumber duration : Int) :
    Effect Hotel Unit :=
  match h.findRoom roomNumber with
  | some room =>
    let made := Reservation.ctor guest room.val duration (h.rooms.get room)
    let h1 := { h with rooms := h.rooms.set room.val made.state }
    match made.result with
    | .ok reservation =>
      ⟨{ h1 with reservations := h1.reservations ++ [reservation] },
        made.cout ++ (green ++ "Reservation successful!\n \n" ++ reset ++ endl), .ok ()⟩
    | .error (.HotelException what) => ⟨h1, made.cout ++ (what ++ endl), .ok ()⟩
    | .error ex => ⟨h1, made.cout, .error ex⟩
  | none => ⟨h, "", .error (.HotelException "Room not found! \n \n")⟩

/-- `Hotel::checkoutRoom`. -/
def Hotel.checkoutRoom (h : Hotel) (roomNumber : Int) : Effect Hotel Unit :=
  match find_if (fun room => room.getRoomNumber == roomNumber) h.rooms with
  | some it =>
    let left := (h.rooms.get it).checkoutRoom
    let h1 := { h with rooms := h.rooms.set it.val left.state }
    match left.result with
    | .ok () =>
      ⟨h1, left.cout ++ (green ++ "Room checked out successfully! \n \n" ++ reset ++ endl),
        .ok ()⟩
    | .error (.HotelException what) => ⟨h1, left.cout ++ (what ++ endl), .ok ()⟩
    | .error ex => ⟨h1, left.cout, .error ex⟩
  | none => ⟨h, "", .error (.HotelException "Room not found! \n \n")⟩

/-- `Hotel::updateEmployeePosition`. -/
def Hotel.updateEmployeePosition (h : Hotel) (employeeID : Int) (newPosition : String) :
    Effect Hotel Unit :=
  match find_if (fun employee => employee.getEmployeeID == employeeID) h.employees with
  | some it =>
    ⟨{ h with employees := h.employees.set it.val ((h.employees.get it).setPosition newPosition) },
      green ++ "Employee position updated successfully! \n \n" ++ reset ++ endl, .ok ()⟩
  | none => ⟨h, "", .error (.HotelException "Employee not found! \n \n")⟩

/-- `Hotel::addFoodOrder`. The loop with `break` is the existence test `List.any`. -/
def Hotel.addFoodOrder (h : Hotel) (guest : Guest) (foodItem : String) (quantity : Int)
    (price : Float) : Effect Hotel Unit :=
  let guestFound :=
    h.rooms.any (fun room => room.getBookingStatus && room.getGuestID == guest.getGuestID)
  if !guestFound then
    ⟨h, "", .error (.HotelException
      "Guest Id not found in any booked room. Unable to place food order. \n \n")⟩
  else
    ⟨{ h with foodOrders := h.foodOrders ++
        [{ guest := guest, foodItem := foodItem, quantity := quantity, price := price }] },
      green ++ "Food order placed successfully! \n \n" ++ reset ++ endl, .ok ()⟩

/-! ## Sequences of calls -/

/-- One call of a mutating operation of `Hotel`, as issued from `main`. -/
inductive Call where
  | addRoom (roomNumber : Int) (roomType : String)
  | addEmployee (employee : Employee)
  | makeReservation (guest : Guest) (roomNumber duration : Int)
  | checkoutRoom (roomNumber : Int)
  | updateEmployeePosition (employeeID : Int) (newPosition : String)
  | addFoodOrder (guest : Guest) (foodItem : String) (quantity : Int) (price : Float)

/-- Dispatch of one call. -/
def Hotel.call (h : Hotel) : Call → Effect Hotel Unit
  | .addRoom roomNumber roomType => h.addRoom roomNumber roomType
  | .addEmployee employee => h.addEmployee employee
  | .makeReservation guest roomNumber duration => h.makeReservation guest roomNumber duration
  | .checkoutRoom roomNumber => h.checkoutRoom roomNumber
  | .updateEmployeePosition employeeID newPosition =>
    h.updateEmployeePosition employeeID newPosition
  | .addFoodOrder guest foodItem quantity price => h.addFoodOrder guest foodItem quantity price

/-- The hotel after a sequence of calls; a call that throws is caught by the caller and
the next call runs on the state it left. -/
def Hotel.run (h : Hotel) (calls : List Call) : Hotel :=
  calls.foldl (fun s c => (s.call c).state) h

/-! ## Predicates used in the statements -/

/-- The booking flag of every room is set exactly when its occupant is not `-1`. -/
def Hotel.flagMatchesOccupant (h : Hotel) : Prop :=
  ∀ r ∈ h.rooms, (r.isBooked = true ↔ r.guestID ≠ -1)

instance Hotel.decidableFlagMatchesOccupant (h : Hotel) : Decidable h.flagMatchesOccupant := by
  unfold Hotel.flagMatchesOccupant
  infer_instance

/-- The call runs a room-level `bookRoom` (in `makeReservation`) or `checkoutRoom` (in
`checkoutRoom`) on the room it finds, and that room-level call throws. -/
def Hotel.roomLevelRejected (h : Hotel) : Call → Bool
  | .makeReservation _ roomNumber _ =>
    match h.findRoom roomNumber with
    | some room => !(h.rooms.get room).bookRoom.result.toBool
    | none => false
  | .checkoutRoom roomNumber =>
    match h.findRoom roomNumber with
    | some room => !(h.rooms.get room).checkoutRoom.result.toBool
    | none => false
  | _ => false

/-- Every room whose booking flag is off has occupant `-1`. -/
def Hotel.freeRoomsUnoccupied (h : Hotel) : Prop :=
  ∀ r ∈ h.rooms, r.isBooked = false → r.guestID = -1

instance Hotel.decidableFreeRoomsUnoccupied (h : Hotel) : Decidable h.freeRoomsUnoccupied := by
  unfold Hotel.freeRoomsUnoccupied
  infer_instance

/-- Every booked room (at position `i` of the room list) is pointed to by some reservation,
and the last reservation in the list that points to it carries a guest whose identifier is the
occupant of the room. -/
def Hotel.bookingsReferenced (h : Hotel) : Prop :=
  ∀ (i : Nat) (r : Room), h.rooms[i]? = some r → r.isBooked = true →
    ∃ res, (h.reservations.filter (fun x => x.room == i)).getLast? = some res ∧
      res.guest.guestID = r.guestID

/-- Every reservation points to a position inside the room list. -/
def Hotel.reservationsPointIntoRooms (h : Hotel) : Prop :=
  ∀ res ∈ h.reservations, res.room < h.rooms.length

instance Hotel.decidableReservationsPointIntoRooms (h : Hotel) :
    Decidable h.reservationsPointIntoRooms := by
  unfold Hotel.reservationsPointIntoRooms
  infer_instance

/-- Every room (at position `j`) that is preceded in the room list by a room (at position
`i < j`) with the same number is free, has occupant `-1`, and no reservation points to it. -/
def Hotel.shadowedRoomsIdle (h : Hotel) : Prop :=
  ∀ (i j : Nat) (ri rj : Room), i < j → h.rooms[i]? = some ri → h.rooms[j]? = some rj →
    ri.roomNumber = rj.roomNumber →
    rj.isBooked = false ∧ rj.guestID = -1 ∧ ∀ res ∈ h.reservations, res.room ≠ j

/-! ## Auxiliary lemmas -/

theorem String.empty_append_eq (s : String) : "" ++ s = s := by
  apply String.ext
  simp

theorem find_if_eq_none_iff {α : Type} (p : α → Bool) (xs : List α) :
    find_if p xs = none ↔ ∀ x ∈ xs, p x = false := by
  induction xs with
  | nil => simp [find_if]
  | cons x xs ih =>
    by_cases hx : p x = true
    · simp [find_if, hx]
    · simp only [Bool.not_eq_true] at hx
      simp [find_if, hx, ih]

theorem find_if_get {α : Type} (p : α → Bool) (xs : List α) (i : Fin xs.length)
    (h : find_if p xs = some i) : p (xs.get i) = true := by
  induction xs with
  | nil => exact i.elim0
  | cons x xs ih =>
    by_cases hx : p x = true
    · simp only [find_if, hx, if_true, Option.some.injEq] at h
      subst h
      simpa using hx
    · simp only [find_if, hx, Bool.false_eq_true, if_false, Option.map_eq_some'] at h
      obtain ⟨j, hj, rfl⟩ := h
      simpa using ih j hj

theorem List.set_get_same {α : Type} (xs : List α) (i : Fin xs.length) :
    xs.set i.val (xs.get i) = xs := by
  apply List.ext_getElem?
  intro j
  rw [List.getElem?_set]
  split
  · next hij => subst hij; simp
  · rfl

theorem Hotel.set_rooms_get (h : Hotel) (i : Fin h.rooms.length) :
    { h with rooms := h.rooms.set i.val (h.rooms.get i) } = h := by
  rw [List.set_get_same]

theorem find_if_set {α : Type} (q : α → Bool) (xs : List α) (i : Fin xs.length) (a : α)
    (hf : find_if q xs = some i) (ha : q a = true) :
    find_if q (xs.set i.val a) = some ⟨i.val, by rw [List.length_set]; exact i.isLt⟩ := by
  induction xs with
  | nil => exact i.elim0
  | cons x xs ih =>
    by_cases hx : q x = true
    · simp only [find_if, hx, if_true, Option.some.injEq] at hf
      subst hf
      simp [find_if, ha]
    · simp only [find_if, hx, Bool.false_eq_true, if_false, Option.map_eq_some'] at hf
      obtain ⟨j, hj, rfl⟩ := hf
      simp only [Fin.val_succ, List.set_cons_succ, find_if, hx, Bool.false_eq_true, if_false,
        ih j hj, Option.map_some']
      rfl

/-- Overwriting the room that `findRoom n` finds by a room that still has number `n` does not
move the pointer that `findRoom n` returns. -/
theorem Hotel.findRoom_after_set (h h1 : Hotel) (n : Int) (p : Fin h.rooms.length)
    (hf : h.findRoom n = some p) (r : Room) (hr : r.roomNumber = n)
    (hrooms : h1.rooms = h.rooms.set p.val r) :
    ∃ p1 : Fin h1.rooms.length, h1.findRoom n = some p1 ∧ p1.val = p.val ∧ h1.rooms.get p1 = r := by
  cases h1 with
  | mk name1 rooms1 employees1 reservations1 foodOrders1 =>
    simp only at hrooms
    subst hrooms
    refine ⟨⟨p.val, by simp⟩, ?_, rfl, by simp⟩
    exact find_if_set _ h.rooms p r hf (by simp [Room.getRoomNumber, hr])

theorem Hotel.findRoom_roomNumber (h : Hotel) (n : Int) (p : Fin h.rooms.length)
    (hf : h.findRoom n = some p) : (h.rooms.get p).roomNumber = n := by
  have := find_if_get _ h.rooms p hf
  simpa [Room.getRoomNumber] using this

theorem find_if_first {α : Type} (p : α → Bool) (xs : List α) (i : Fin xs.length)
    (h : find_if p xs = some i) (j : Nat) (hj : j < i.val) (x : α) (hx : xs[j]? = some x) :
    p x = false := by
  induction xs generalizing j with
  | nil => exact i.elim0
  | cons y ys ih =>
    by_cases hy : p y = true
    · simp only [find_if, hy, if_true, Option.some.injEq] at h
      subst h
      simp at hj
    · simp only [find_if, hy, Bool.false_eq_true, if_false, Option.map_eq_some'] at h
      obtain ⟨k, hk, rfl⟩ := h
      cases j with
      | zero =>
        simp only [List.getElem?_cons_zero, Option.some.injEq] at hx
        subst hx
        simpa using hy
      | succ j =>
        simp only [List.getElem?_cons_succ] at hx
        exact ih k hk j (by simpa using hj) hx

theorem find_if_exists {α : Type} (p : α → Bool) (xs : List α) (hex : ∃ x ∈ xs, p x = true) :
    ∃ i, find_if p xs = some i := by
  cases hf : find_if p xs with
  | some i => exact ⟨i, rfl⟩
  | none =>
    obtain ⟨x, hx, hp⟩ := hex
    rw [find_if_eq_none_iff] at hf
    rw [hf x hx] at hp
    cases hp

/-! ## What each operation computes, case by case -/

theorem Reservation.ctor_booked (g : Guest) (r : Nat) (d : Int) (room : Room)
    (hb : room.isBooked = true) :
    Reservation.ctor g r d room = ⟨room, "", .error (.c_str "")⟩ := by
  simp [Reservation.ctor, Room.bookRoom, hb]

theorem Reservation.ctor_free (g : Guest) (r : Nat) (d : Int) (room : Room)
    (hb : room.isBooked = false) :
    Reservation.ctor g r d room =
      ⟨{ room with isBooked := true, guestID := g.guestID }, "",
        .ok { guest := g, room := r, duration := d }⟩ := by
  simp [Reservation.ctor, Room.bookRoom, hb, Room.assignGuest, Guest.getGuestID]

theorem Hotel.makeReservation_none (h : Hotel) (g : Guest) (n d : Int)
    (hf : h.findRoom n = none) :
    h.makeReservation g n d = ⟨h, "", .error (.HotelException "Room not found! \n \n")⟩ := by
  simp only [Hotel.makeReservation, hf]

theorem Hotel.makeReservation_booked (h : Hotel) (g : Guest) (n d : Int)
    (p : Fin h.rooms.length) (hf : h.findRoom n = some p)
    (hb : (h.rooms.get p).isBooked = true) :
    h.makeReservation g n d = ⟨h, "", .error (.c_str "")⟩ := by
  simp only [Hotel.makeReservation, hf, Reservation.ctor_booked g p.val d _ hb,
    Hotel.set_rooms_get]

theorem Hotel.makeReservation_free (h : Hotel) (g : Guest) (n d : Int)
    (p : Fin h.rooms.length) (hf : h.findRoom n = some p)
    (hb : (h.rooms.get p).isBooked = false) :
    h.makeReservation g n d =
      ⟨{ h with
          rooms := h.rooms.set p.val { h.rooms.get p with isBooked := true, guestID := g.guestID }
          reservations := h.reservations ++ [{ guest := g, room := p.val, duration := d }] },
        green ++ "Reservation successful!\n \n" ++ reset ++ endl, .ok ()⟩ := by
  simp only [Hotel.makeReservation, hf, Reservation.ctor_free g p.val d _ hb,
    String.empty_append_eq]

theorem Hotel.checkoutRoom_none (h : Hotel) (n : Int) (hf : h.findRoom n = none) :
    h.checkoutRoom n = ⟨h, "", .error (.HotelException "Room not found! \n \n")⟩ := by
  unfold Hotel.findRoom at hf
  simp only [Hotel.checkoutRoom, hf]

theorem Hotel.checkoutRoom_free (h : Hotel) (n : Int) (p : Fin h.rooms.length)
    (hf : h.findRoom n = some p) (hb : (h.rooms.get p).isBooked = false) :
    h.checkoutRoom n =
      ⟨h, "Room is already available, can't checkout from an unoccupied room! \n \n" ++ endl,
        .ok ()⟩ := by
  unfold Hotel.findRoom at hf
  simp only [Hotel.checkoutRoom, hf, Room.checkoutRoom, hb, Bool.not_false, if_true,
    Hotel.set_rooms_get, String.empty_append_eq]

theorem Hotel.checkoutRoom_booked (h : Hotel) (n : Int) (p : Fin h.rooms.length)
    (hf : h.findRoom n = some p) (hb : (h.rooms.get p).isBooked = true) :
    h.checkoutRoom n =
      ⟨{ h with rooms := h.rooms.set p.val { h.rooms.get p with isBooked := false, guestID := -1 } },
        green ++ "Room checked out successfully! \n \n" ++ reset ++ endl, .ok ()⟩ := by
  unfold Hotel.findRoom at hf
  simp only [Hotel.checkoutRoom, hf, Room.checkoutRoom, hb, Bool.not_true, Bool.false_eq_true,
    if_false, String.empty_append_eq]

theorem Hotel.makeReservation_ok_iff (h : Hotel) (g : Guest) (n d : Int) :
    (h.makeReservation g n d).result = .ok () ↔
      ∃ p, h.findRoom n = some p ∧ (h.rooms.get p).isBooked = false := by
  cases hf : h.findRoom n with
  | none => simp [Hotel.makeReservation_none h g n d hf]
  | some p =>
    cases hb : (h.rooms.get p).isBooked with
    | true =>
      rw [Hotel.makeReservation_booked h g n d p hf hb]
      simp only [reduceCtorEq, Option.some.injEq, exists_eq_left', false_iff]
      rw [hb]
      simp
    | false =>
      rw [Hotel.makeReservation_free h g n d p hf hb]
      simp only [Option.some.injEq, exists_eq_left', true_iff]
      exact hb

theorem Hotel.addFoodOrder_checked_in (h : Hotel) (g : Guest) (item : String) (qty : Int)
    (price : Float) (hin : ∃ r ∈ h.rooms, r.isBooked = true ∧ r.guestID = g.guestID) :
    h.addFoodOrder g item qty price =
      ⟨{ h with foodOrders := h.foodOrders ++
          [{ guest := g, foodItem := item, quantity := qty, price := price }] },
        green ++ "Food order placed successfully! \n \n" ++ reset ++ endl, .ok ()⟩ := by
  have hany : h.rooms.any
      (fun room => room.getBookingStatus && room.getGuestID == g.getGuestID) = true := by
    obtain ⟨r, hr, hbk, hid⟩ := hin
    rw [List.any_eq_true]
    exact ⟨r, hr, by simp [Room.getBookingStatus, Room.getGuestID, Guest.getGuestID, hbk, hid]⟩
  simp only [Hotel.addFoodOrder, hany, Bool.not_true, Bool.false_eq_true, if_false]

theorem Hotel.addFoodOrder_absent (h : Hotel) (g : Guest) (item : String) (qty : Int)
    (price : Float) (hout : ¬ ∃ r ∈ h.rooms, r.isBooked = true ∧ r.guestID = g.guestID) :
    h.addFoodOrder g item qty price =
      ⟨h, "", .error (.HotelException
        "Guest Id not found in any booked room. Unable to place food order. \n \n")⟩ := by
  have hany : h.rooms.any
      (fun room => room.getBookingStatus && room.getGuestID == g.getGuestID) = false := by
    rw [Bool.eq_false_iff]
    intro hc
    rw [List.any_eq_true] at hc
    obtain ⟨r, hr, hp⟩ := hc
    simp only [Room.getBookingStatus, Room.getGuestID, Guest.getGuestID, Bool.and_eq_true,
      beq_iff_eq] at hp
    exact hout ⟨r, hr, hp.1, hp.2⟩
  simp only [Hotel.addFoodOrder, hany, Bool.not_false, if_true]

theorem Hotel.findRoom_eq_none_iff (h : Hotel) (n : Int) :
    h.findRoom n = none ↔ ∀ r ∈ h.rooms, r.roomNumber ≠ n := by
  unfold Hotel.findRoom
  rw [find_if_eq_none_iff]
  simp [Room.getRoomNumber]

theorem Hotel.updateEmployeePosition_none (h : Hotel) (id : Int) (newPosition : String)
    (hf : find_if (fun employee => employee.getEmployeeID == id) h.employees = none) :
    h.updateEmployeePosition id newPosition =
      ⟨h, "", .error (.HotelException "Employee not found! \n \n")⟩ := by
  simp only [Hotel.updateEmployeePosition, hf]

theorem Hotel.updateEmployeePosition_some (h : Hotel) (id : Int) (newPosition : String)
    (i : Fin h.employees.length)
    (hf : find_if (fun employee => employee.getEmployeeID == id) h.employees = some i) :
    h.updateEmployeePosition id newPosition =
      ⟨{ h with employees :=
          h.employees.set i.val { h.employees.get i with position := newPosition } },
        green ++ "Employee position updated successfully! \n \n" ++ reset ++ endl, .ok ()⟩ := by
  simp only [Hotel.updateEmployeePosition, hf, Employee.setPosition]

/-! ## The flag/occupant invariant -/

theorem Hotel.rooms_after_call (h : Hotel) (c : Call) :
    (h.call c).state.rooms = h.rooms ∨
    (∃ n t, c = .addRoom n t ∧ (h.call c).state.rooms = h.rooms ++ [Room.ctor n t]) ∨
    (∃ g n d p, c = .makeReservation g n d ∧ (h.rooms.get p).isBooked = false ∧
      (h.call c).state.rooms =
        h.rooms.set p.val { h.rooms.get p with isBooked := true, guestID := g.guestID }) ∨
    (∃ p : Fin h.rooms.length, (h.call c).state.rooms =
        h.rooms.set p.val { h.rooms.get p with isBooked := false, guestID := -1 }) := by
  cases c with
  | addRoom n t => exact Or.inr (Or.inl ⟨n, t, rfl, rfl⟩)
  | addEmployee e => exact Or.inl rfl
  | makeReservation g n d =>
    simp only [Hotel.call]
    cases hf : h.findRoom n with
    | none => rw [Hotel.makeReservation_none h g n d hf]; exact Or.inl rfl
    | some p =>
      cases hb : (h.rooms.get p).isBooked with
      | true => rw [Hotel.makeReservation_booked h g n d p hf hb]; exact Or.inl rfl
      | false =>
        rw [Hotel.makeReservation_free h g n d p hf hb]
        exact Or.inr (Or.inr (Or.inl ⟨g, n, d, p, rfl, hb, rfl⟩))
  | checkoutRoom n =>
    simp only [Hotel.call]
    cases hf : h.findRoom n with
    | none => rw [Hotel.checkoutRoom_none h n hf]; exact Or.inl rfl
    | some p =>
      cases hb : (h.rooms.get p).isBooked with
      | true =>
        rw [Hotel.checkoutRoom_booked h n p hf hb]
        exact Or.inr (Or.inr (Or.inr ⟨p, rfl⟩))
      | false => rw [Hotel.checkoutRoom_free h n p hf hb]; exact Or.inl rfl
  | updateEmployeePosition i s =>
    simp only [Hotel.call, Hotel.updateEmployeePosition]
    split <;> exact Or.inl rfl
  | addFoodOrder g f q pr =>
    simp only [Hotel.call, Hotel.addFoodOrder]
    split <;> exact Or.inl rfl

theorem Hotel.flagMatchesOccupant_call (h : Hotel) (c : Call)
    (hg : ∀ g n d, c = .makeReservation g n d → g.guestID ≠ -1)
    (hinv : h.flagMatchesOccupant) : (h.call c).state.flagMatchesOccupant := by
  intro r hr
  rcases Hotel.rooms_after_call h c with e | ⟨n, t, _, e⟩ | ⟨g, n, d, p, hc, _, e⟩ | ⟨p, e⟩
  · rw [e] at hr
    exact hinv r hr
  · rw [e, List.mem_append, List.mem_singleton] at hr
    rcases hr with hr | rfl
    · exact hinv r hr
    · simp [Room.ctor]
  · rw [e] at hr
    rcases List.mem_or_eq_of_mem_set hr with hr | rfl
    · exact hinv r hr
    · simpa using hg g n d hc
  · rw [e] at hr
    rcases List.mem_or_eq_of_mem_set hr with hr | rfl
    · exact hinv r hr
    · simp

theorem Hotel.flagMatchesOccupant_run (calls : List Call) (h : Hotel)
    (hg : ∀ g n d, Call.makeReservation g n d ∈ calls → g.guestID ≠ -1)
    (hinv : h.flagMatchesOccupant) : (h.run calls).flagMatchesOccupant := by
  induction calls generalizing h with
  | nil => exact hinv
  | cons c cs ih =>
    apply ih (h.call c).state
    · intro g n d hm
      exact hg g n d (List.mem_cons_of_mem _ hm)
    · apply Hotel.flagMatchesOccupant_call h c _ hinv
      intro g n d hc
      exact hg g n d (hc ▸ List.mem_cons_self _ _)

/-! ## Rooms and reservations after one call -/

/-- What one call does to the room list and to the reservation list: nothing, or the append of
`addRoom`, or the booking of a free found room, or the checkout of a booked found room. -/
theorem Hotel.call_cases (h : Hotel) (c : Call) :
    ((h.call c).state.rooms = h.rooms ∧ (h.call c).state.reservations = h.reservations) ∨
    (∃ n t, c = .addRoom n t ∧ (h.call c).state.rooms = h.rooms ++ [Room.ctor n t] ∧
      (h.call c).state.reservations = h.reservations) ∨
    (∃ g n d p, c = .makeReservation g n d ∧ h.findRoom n = some p ∧
      (h.rooms.get p).isBooked = false ∧
      (h.call c).state.rooms =
        h.rooms.set p.val { h.rooms.get p with isBooked := true, guestID := g.guestID } ∧
      (h.call c).state.reservations =
        h.reservations ++ [{ guest := g, room := p.val, duration := d }]) ∨
    (∃ n p, c = .checkoutRoom n ∧ h.findRoom n = some p ∧ (h.rooms.get p).isBooked = true ∧
      h.checkoutRoom n =
        ⟨{ h with rooms :=
            h.rooms.set p.val { h.rooms.get p with isBooked := false, guestID := -1 } },
          green ++ "Room checked out successfully! \n \n" ++ reset ++ endl, .ok ()⟩ ∧
      (h.call c).state.rooms =
        h.rooms.set p.val { h.rooms.get p with isBooked := false, guestID := -1 } ∧
      (h.call c).state.reservations = h.reservations) := by
  cases c with
  | addRoom n t => exact Or.inr (Or.inl ⟨n, t, rfl, rfl, rfl⟩)
  | addEmployee e => exact Or.inl ⟨rfl, rfl⟩
  | makeReservation g n d =>
    simp only [Hotel.call]
    cases hf : h.findRoom n with
    | none => rw [Hotel.makeReservation_none h g n d hf]; exact Or.inl ⟨rfl, rfl⟩
    | some p =>
      cases hb : (h.rooms.get p).isBooked with
      | true => rw [Hotel.makeReservation_booked h g n d p hf hb]; exact Or.inl ⟨rfl, rfl⟩
      | false =>
        have e := Hotel.makeReservation_free h g n d p hf hb
        exact Or.inr (Or.inr (Or.inl ⟨g, n, d, p, rfl, hf, hb,
          congrArg (fun x => x.state.rooms) e, congrArg (fun x => x.state.reservations) e⟩))
  | checkoutRoom n =>
    simp only [Hotel.call]
    cases hf : h.findRoom n with
    | none => rw [Hotel.checkoutRoom_none h n hf]; exact Or.inl ⟨rfl, rfl⟩
    | some p =>
      cases hb : (h.rooms.get p).isBooked with
      | true =>
        have e := Hotel.checkoutRoom_booked h n p hf hb
        exact Or.inr (Or.inr (Or.inr ⟨n, p, rfl, hf, hb, e,
          congrArg (fun x => x.state.rooms) e, congrArg (fun x => x.state.reservations) e⟩))
      | false => rw [Hotel.checkoutRoom_free h n p hf hb]; exact Or.inl ⟨rfl, rfl⟩
  | updateEmployeePosition i s =>
    simp only [Hotel.call, Hotel.updateEmployeePosition]
    split <;> exact Or.inl ⟨rfl, rfl⟩
  | addFoodOrder g f q pr =>
    simp only [Hotel.call, Hotel.addFoodOrder]
    split <;> exact Or.inl ⟨rfl, rfl⟩

theorem List.getElem?_get_fin {α : Type} (xs : List α) (p : Fin xs.length) :
    xs[p.val]? = some (xs.get p) := by
  simp

/-- What one call does to the reservation list and to the order list: nothing (and then the
call is no successful `makeReservation` or `addFoodOrder`), or one reservation appended by a
`makeReservation`, or one order appended by an `addFoodOrder`. -/
theorem Hotel.lists_after_call (h : Hotel) (c : Call) :
    ((h.call c).state.reservations = h.reservations ∧
      (h.call c).state.foodOrders = h.foodOrders ∧
      (∀ g n d, c = .makeReservation g n d → (h.call c).result ≠ .ok ()) ∧
      (∀ g f q pr, c = .addFoodOrder g f q pr → (h.call c).result ≠ .ok ())) ∨
    (∃ g n d p, c = .makeReservation g n d ∧ h.findRoom n = some p ∧
      (h.call c).state.reservations =
        h.reservations ++ [{ guest := g, room := p.val, duration := d }] ∧
      (h.call c).state.foodOrders = h.foodOrders) ∨
    (∃ g f q pr, c = .addFoodOrder g f q pr ∧
      (h.call c).state.foodOrders =
        h.foodOrders ++ [{ guest := g, foodItem := f, quantity := q, price := pr }] ∧
      (h.call c).state.reservations = h.reservations) := by
  cases c with
  | addRoom n t =>
    exact Or.inl ⟨rfl, rfl, (fun _ _ _ hc => nomatch hc), (fun _ _ _ _ hc => nomatch hc)⟩
  | addEmployee e =>
    exact Or.inl ⟨rfl, rfl, (fun _ _ _ hc => nomatch hc), (fun _ _ _ _ hc => nomatch hc)⟩
  | makeReservation g n d =>
    cases hf : h.findRoom n with
    | none =>
      have e := Hotel.makeReservation_none h g n d hf
      refine Or.inl ⟨congrArg (fun x => x.state.reservations) e,
        congrArg (fun x => x.state.foodOrders) e, ?_, (fun _ _ _ _ hc => nomatch hc)⟩
      intro _ _ _ _ hok
      have hres := congrArg (fun x => x.result) e
      simp only [Hotel.call] at hok
      simp only at hres
      rw [hres] at hok
      cases hok
    | some p =>
      cases hb : (h.rooms.get p).isBooked with
      | true =>
        have e := Hotel.makeReservation_booked h g n d p hf hb
        refine Or.inl ⟨congrArg (fun x => x.state.reservations) e,
          congrArg (fun x => x.state.foodOrders) e, ?_, (fun _ _ _ _ hc => nomatch hc)⟩
        intro _ _ _ _ hok
        have hres := congrArg (fun x => x.result) e
        simp only [Hotel.call] at hok
        simp only at hres
        rw [hres] at hok
        cases hok
      | false =>
        have e := Hotel.makeReservation_free h g n d p hf hb
        exact Or.inr (Or.inl ⟨g, n, d, p, rfl, hf, congrArg (fun x => x.state.reservations) e,
          congrArg (fun x => x.state.foodOrders) e⟩)
  | checkoutRoom n =>
    have hs : (h.checkoutRoom n).state.reservations = h.reservations ∧
        (h.checkoutRoom n).state.foodOrders = h.foodOrders := by
      cases hf : h.findRoom n with
      | none => rw [Hotel.checkoutRoom_none h n hf]; exact ⟨rfl, rfl⟩
      | some p =>
        cases hb : (h.rooms.get p).isBooked with
        | true => rw [Hotel.checkoutRoom_booked h n p hf hb]; exact ⟨rfl, rfl⟩
        | false => rw [Hotel.checkoutRoom_free h n p hf hb]; exact ⟨rfl, rfl⟩
    exact Or.inl ⟨hs.1, hs.2, (fun _ _ _ hc => nomatch hc), (fun _ _ _ _ hc => nomatch hc)⟩
  | updateEmployeePosition i s =>
    have hs : (h.updateEmployeePosition i s).state.reservations = h.reservations ∧
        (h.updateEmployeePosition i s).state.foodOrders = h.foodOrders := by
      simp only [Hotel.updateEmployeePosition]
      split <;> exact ⟨rfl, rfl⟩
    exact Or.inl ⟨hs.1, hs.2, (fun _ _ _ hc => nomatch hc), (fun _ _ _ _ hc => nomatch hc)⟩
  | addFoodOrder g f q pr =>
    by_cases hin : ∃ r ∈ h.rooms, r.isBooked = true ∧ r.guestID = g.guestID
    · have e := Hotel.addFoodOrder_checked_in h g f q pr hin
      exact Or.inr (Or.inr ⟨g, f, q, pr, rfl, congrArg (fun x => x.state.foodOrders) e,
        congrArg (fun x => x.state.reservations) e⟩)
    · have e := Hotel.addFoodOrder_absent h g f q pr hin
      refine Or.inl ⟨congrArg (fun x => x.state.reservations) e,
        congrArg (fun x => x.state.foodOrders) e, (fun _ _ _ hc => nomatch hc), ?_⟩
      intro _ _ _ _ _ hok
      have hres := congrArg (fun x => x.result) e
      simp only [Hotel.call] at hok
      simp only at hres
      rw [hres] at hok
      cases hok

/-! ## Invariants of reachable states -/

theorem Hotel.freeRoomsUnoccupied_call (h : Hotel) (c : Call)
    (hinv : h.freeRoomsUnoccupied) : (h.call c).state.freeRoomsUnoccupied := by
  intro r hr hb
  rcases Hotel.rooms_after_call h c with e | ⟨n, t, _, e⟩ | ⟨g, n, d, p, _, _, e⟩ | ⟨p, e⟩
  · rw [e] at hr
    exact hinv r hr hb
  · rw [e, List.mem_append, List.mem_singleton] at hr
    rcases hr with hr | rfl
    · exact hinv r hr hb
    · rfl
  · rw [e] at hr
    rcases List.mem_or_eq_of_mem_set hr with hr | rfl
    · exact hinv r hr hb
    · cases hb
  · rw [e] at hr
    rcases List.mem_or_eq_of_mem_set hr with hr | rfl
    · exact hinv r hr hb
    · rfl

theorem Hotel.freeRoomsUnoccupied_run (calls : List Call) (h : Hotel)
    (hinv : h.freeRoomsUnoccupied) : (h.run calls).freeRoomsUnoccupied := by
  induction calls generalizing h with
  | nil => exact hinv
  | cons c cs ih => exact ih (h.call c).state (Hotel.freeRoomsUnoccupied_call h c hinv)

theorem Hotel.bookingsReferenced_call (h : Hotel) (c : Call)
    (hinv : h.bookingsReferenced) : (h.call c).state.bookingsReferenced := by
  intro i r hr hb
  rcases Hotel.call_cases h c with ⟨e, er⟩ | ⟨n, t, _, e, er⟩ | ⟨g, n, d, p, _, _, _, e, er⟩ |
    ⟨n, p, _, _, _, _, e, er⟩
  · rw [e] at hr
    rw [er]
    exact hinv i r hr hb
  · rw [er]
    rw [e] at hr
    by_cases hlt : i < h.rooms.length
    · rw [List.getElem?_append_left hlt] at hr
      exact hinv i r hr hb
    · rw [List.getElem?_append_right (Nat.le_of_not_lt hlt)] at hr
      have hmem : r ∈ [Room.ctor n t] := List.getElem?_mem hr
      rw [List.mem_singleton] at hmem
      subst hmem
      cases hb
  · rw [e] at hr
    rw [er, List.filter_append]
    by_cases hpi : p.val = i
    · subst hpi
      rw [List.getElem?_set_self p.isLt, Option.some.injEq] at hr
      subst hr
      refine ⟨{ guest := g, room := p.val, duration := d }, ?_, rfl⟩
      simp
    · rw [List.getElem?_set_ne hpi] at hr
      obtain ⟨res, hres, hg⟩ := hinv i r hr hb
      refine ⟨res, ?_, hg⟩
      simpa [hpi] using hres
  · rw [e] at hr
    rw [er]
    by_cases hpi : p.val = i
    · subst hpi
      rw [List.getElem?_set_self p.isLt, Option.some.injEq] at hr
      subst hr
      cases hb
    · rw [List.getElem?_set_ne hpi] at hr
      exact hinv i r hr hb

theorem Hotel.bookingsReferenced_run (calls : List Call) (h : Hotel)
    (hinv : h.bookingsReferenced) : (h.run calls).bookingsReferenced := by
  induction calls generalizing h with
  | nil => exact hinv
  | cons c cs ih => exact ih (h.call c).state (Hotel.bookingsReferenced_call h c hinv)

theorem Hotel.findRoom_first (h : Hotel) (n : Int) (p : Fin h.rooms.length)
    (hf : h.findRoom n = some p) (k : Nat) (x : Room) (hk : k < p.val)
    (hx : h.rooms[k]? = some x) : x.roomNumber ≠ n := by
  have := find_if_first _ h.rooms p hf k hk x hx
  simpa [Room.getRoomNumber] using this

theorem List.room_before_set (rooms : List Room) (p : Fin rooms.length) (r1 : Room)
    (hn : r1.roomNumber = (rooms.get p).roomNumber) (k : Nat) (x : Room)
    (hx : (rooms.set p.val r1)[k]? = some x) :
    ∃ x0, rooms[k]? = some x0 ∧ x0.roomNumber = x.roomNumber ∧ (k ≠ p.val → x0 = x) ∧
      (k = p.val → x0 = rooms.get p) := by
  by_cases hkp : p.val = k
  · subst hkp
    rw [List.getElem?_set_self p.isLt, Option.some.injEq] at hx
    subst hx
    exact ⟨rooms.get p, List.getElem?_get_fin rooms p, hn.symm, fun hne => absurd rfl hne,
      fun _ => rfl⟩
  · rw [List.getElem?_set_ne hkp] at hx
    exact ⟨x, hx, rfl, fun _ => rfl, fun hk => absurd hk.symm hkp⟩

/-- Overwriting the room that `findRoom n` finds, keeping its number, makes no room shadowed
that was not shadowed before, and the overwritten room itself is never shadowed. -/
theorem Hotel.shadowed_after_set (h : Hotel) (n : Int) (p : Fin h.rooms.length)
    (hf : h.findRoom n = some p) (r1 : Room) (hn : r1.roomNumber = (h.rooms.get p).roomNumber)
    (hinv : h.shadowedRoomsIdle) (i j : Nat) (ri rj : Room) (hij : i < j)
    (hi : (h.rooms.set p.val r1)[i]? = some ri) (hj : (h.rooms.set p.val r1)[j]? = some rj)
    (hnum : ri.roomNumber = rj.roomNumber) :
    j ≠ p.val ∧ rj.isBooked = false ∧ rj.guestID = -1 ∧ ∀ res ∈ h.reservations, res.room ≠ j := by
  obtain ⟨ri0, hi0, hni, _, _⟩ := List.room_before_set h.rooms p r1 hn i ri hi
  obtain ⟨rj0, hj0, hnj, hjne, hjeq⟩ := List.room_before_set h.rooms p r1 hn j rj hj
  have hjp : j ≠ p.val := by
    intro hjp
    have h1 : rj0.roomNumber = n := by
      rw [hjeq hjp]
      exact Hotel.findRoom_roomNumber h n p hf
    have h2 : ri0.roomNumber ≠ n := Hotel.findRoom_first h n p hf i ri0 (hjp ▸ hij) hi0
    exact h2 (by rw [hni, hnum, ← hnj, h1])
  have hrj : rj0 = rj := hjne hjp
  subst hrj
  exact ⟨hjp, hinv i j ri0 rj0 hij hi0 hj0 (by rw [hni, hnum])⟩

theorem Hotel.shadowedRoomsIdle_call (h : Hotel) (c : Call)
    (hval : h.reservationsPointIntoRooms) (hinv : h.shadowedRoomsIdle) :
    (h.call c).state.reservationsPointIntoRooms ∧ (h.call c).state.shadowedRoomsIdle := by
  rcases Hotel.call_cases h c with ⟨e, er⟩ | ⟨n, t, _, e, er⟩ | ⟨g, n, d, p, _, hf, _, e, er⟩ |
    ⟨n, p, _, hf, _, _, e, er⟩
  · refine ⟨?_, ?_⟩
    · intro res hres
      rw [er] at hres
      rw [e]
      exact hval res hres
    · intro i j ri rj hij hi hj hnum
      rw [e] at hi hj
      rw [er]
      exact hinv i j ri rj hij hi hj hnum
  · refine ⟨?_, ?_⟩
    · intro res hres
      rw [er] at hres
      rw [e, List.length_append]
      exact Nat.lt_of_lt_of_le (hval res hres) (Nat.le_add_right _ _)
    · intro i j ri rj hij hi hj hnum
      rw [e] at hi hj
      rw [er]
      by_cases hlt : j < h.rooms.length
      · rw [List.getElem?_append_left hlt] at hj
        rw [List.getElem?_append_left (Nat.lt_trans hij hlt)] at hi
        exact hinv i j ri rj hij hi hj hnum
      · have hjlen : j < (h.rooms ++ [Room.ctor n t]).length := (List.getElem?_eq_some.mp hj).1
        rw [List.length_append, List.length_singleton] at hjlen
        have hje : j = h.rooms.length := by omega
        rw [List.getElem?_append_right (Nat.le_of_not_lt hlt)] at hj
        have hmem : rj ∈ [Room.ctor n t] := List.getElem?_mem hj
        rw [List.mem_singleton] at hmem
        subst hmem
        refine ⟨rfl, rfl, ?_⟩
        intro res hres hroom
        have := hval res hres
        omega
  · have hn : ({ h.rooms.get p with isBooked := true, guestID := g.guestID } : Room).roomNumber
        = (h.rooms.get p).roomNumber := rfl
    refine ⟨?_, ?_⟩
    · intro res hres
      rw [er, List.mem_append, List.mem_singleton] at hres
      rw [e, List.length_set]
      rcases hres with hres | rfl
      · exact hval res hres
      · exact p.isLt
    · intro i j ri rj hij hi hj hnum
      rw [e] at hi hj
      obtain ⟨hjp, hb, hg, hres⟩ :=
        Hotel.shadowed_after_set h n p hf _ hn hinv i j ri rj hij hi hj hnum
      refine ⟨hb, hg, ?_⟩
      intro res hmem
      rw [er, List.mem_append, List.mem_singleton] at hmem
      rcases hmem with hmem | rfl
      · exact hres res hmem
      · exact fun hc => hjp hc.symm
  · have hn : ({ h.rooms.get p with isBooked := false, guestID := -1 } : Room).roomNumber
        = (h.rooms.get p).roomNumber := rfl
    refine ⟨?_, ?_⟩
    · intro res hres
      rw [er] at hres
      rw [e, List.length_set]
      exact hval res hres
    · intro i j ri rj hij hi hj hnum
      rw [e] at hi hj
      rw [er]
      exact (Hotel.shadowed_after_set h n p hf _ hn hinv i j ri rj hij hi hj hnum).2

theorem Hotel.shadowedRoomsIdle_run (calls : List Call) (h : Hotel)
    (hval : h.reservationsPointIntoRooms) (hinv : h.shadowedRoomsIdle) :
    (h.run calls).reservationsPointIntoRooms ∧ (h.run calls).shadowedRoomsIdle := by
  induction calls generalizing h with
  | nil => exact ⟨hval, hinv⟩
  | cons c cs ih =>
    have hstep := Hotel.shadowedRoomsIdle_call h c hval hinv
    exact ih (h.call c).state hstep.1 hstep.2

/-! ## Claims -/

/-- C1, as stated, fails: after `addRoom(101, "Deluxe")` and a reservation of room 101 for a
guest whose identifier is `-1`, the room is booked while its occupant is the sentinel `-1`. -/
theorem C1_sentinel_guest_breaks_invariant :
    ((Hotel.ctor "H").run
        [.addRoom 101 "Deluxe", .makeReservation ⟨"Ann", 30, -1⟩ 101 1]).rooms
      = [⟨101, "Deluxe", true, -1⟩] ∧
    ¬ ((Hotel.ctor "H").run
        [.addRoom 101 "Deluxe", .makeReservation ⟨"Ann", 30, -1⟩ 101 1]).flagMatchesOccupant := by
  refine ⟨by decide, ?_⟩
  intro hinv
  have := hinv ⟨101, "Deluxe", true, -1⟩ (by decide)
  simp at this

/-- C1, amended: in every state reached from an empty hotel by a sequence of calls in which
no `makeReservation` carries the guest identifier `-1`, every room is booked if and only if
its occupant differs from `-1`. -/
theorem C1_flag_iff_occupant (name : String) (calls : List Call)
    (hg : ∀ g n d, Call.makeReservation g n d ∈ calls → g.guestID ≠ -1) :
    ((Hotel.ctor name).run calls).flagMatchesOccupant := by
  apply Hotel.flagMatchesOccupant_run calls _ hg
  intro r hr
  simp [Hotel.ctor] at hr

theorem C1_flag_iff_occupant_witness :
    ((Hotel.ctor "H").run
      [.addRoom 101 "Deluxe", .addRoom 102 "Suite", .makeReservation ⟨"Ann", 30, 7⟩ 101 3,
        .checkoutRoom 102]).flagMatchesOccupant :=
  C1_flag_iff_occupant "H"
    [.addRoom 101 "Deluxe", .addRoom 102 "Suite", .makeReservation ⟨"Ann", 30, 7⟩ 101 3,
      .checkoutRoom 102]
    (by
      intro g n d hm
      simp only [List.mem_cons, List.mem_singleton, Call.makeReservation.injEq,
        List.not_mem_nil, or_false, false_or, reduceCtorEq] at hm
      obtain ⟨rfl, _, _⟩ := hm
      decide)

/-- C2: the code at the failing input. Room 101 is booked by guest 7; the second
`makeReservation`, for guest 8, finds it booked. What leaves `makeReservation` is the C string
`""` thrown by the constructor of `Reservation`, not a `HotelException`: the message
"Room is already booked!" is lost, nothing is printed, and the state is unchanged. -/
theorem C2_already_booked_throws_empty_c_string :
    (((Hotel.ctor "H").run [.addRoom 101 "Deluxe", .makeReservation ⟨"Ann", 30, 7⟩ 101 3]).rooms
      = [⟨101, "Deluxe", true, 7⟩]) ∧
    (((Hotel.ctor "H").run [.addRoom 101 "Deluxe", .makeReservation ⟨"Ann", 30, 7⟩ 101 3]).makeReservation
      ⟨"Bob", 41, 8⟩ 101 1).result = .error (.c_str "") ∧
    (((Hotel.ctor "H").run [.addRoom 101 "Deluxe", .makeReservation ⟨"Ann", 30, 7⟩ 101 3]).makeReservation
      ⟨"Bob", 41, 8⟩ 101 1).result ≠ .error (.HotelException "Room is already booked! \n \n") ∧
    (((Hotel.ctor "H").run [.addRoom 101 "Deluxe", .makeReservation ⟨"Ann", 30, 7⟩ 101 3]).makeReservation
      ⟨"Bob", 41, 8⟩ 101 1).cout = "" := by
  refine ⟨by decide, rfl, ?_, rfl⟩
  intro hne
  have hc : (Except.error (Exception.c_str "") : Except Exception Unit)
      = .error (.HotelException "Room is already booked! \n \n") := hne
  simp at hc

/-- C3, as stated, fails: room 101 exists and is not booked, and `checkoutRoom(101)` returns
normally; the caller receives no exception, the message is only printed. -/
theorem C3_not_booked_is_not_thrown :
    (((Hotel.ctor "H").run [.addRoom 101 "Deluxe"]).findRoom 101).map
        (fun p => (((Hotel.ctor "H").run [.addRoom 101 "Deluxe"]).rooms.get p).isBooked)
      = some false ∧
    (((Hotel.ctor "H").run [.addRoom 101 "Deluxe"]).checkoutRoom 101).result = .ok () ∧
    ¬ ∃ e, (((Hotel.ctor "H").run [.addRoom 101 "Deluxe"]).checkoutRoom 101).result = .error e := by
  refine ⟨by decide, rfl, ?_⟩
  rintro ⟨e, he⟩
  have hc : (Except.ok () : Except Exception Unit) = .error e := he
  simp at hc

/-- C3, amended: when the room found for number `n` is not booked, the `HotelException` of
`Room::checkoutRoom` is caught inside `Hotel::checkoutRoom`, its message is printed, the call
returns normally to its caller, and the hotel is unchanged. -/
theorem C3_not_booked_is_printed (h : Hotel) (n : Int) (p : Fin h.rooms.length)
    (hf : h.findRoom n = some p) (hb : (h.rooms.get p).isBooked = false) :
    (h.rooms.get p).checkoutRoom.result = .error (.HotelException
      "Room is already available, can't checkout from an unoccupied room! \n \n") ∧
    (h.checkoutRoom n).result = .ok () ∧
    (h.checkoutRoom n).cout =
      "Room is already available, can't checkout from an unoccupied room! \n \n" ++ endl ∧
    (h.checkoutRoom n).state = h := by
  rw [Hotel.checkoutRoom_free h n p hf hb]
  exact ⟨by simp only [Room.checkoutRoom, hb, Bool.not_false, if_true], rfl, rfl, rfl⟩

theorem C3_not_booked_is_printed_witness :
    (((Hotel.ctor "H").run [.addRoom 101 "Deluxe"]).rooms.get ⟨0, by decide⟩).checkoutRoom.result
      = .error (.HotelException
        "Room is already available, can't checkout from an unoccupied room! \n \n") ∧
    (((Hotel.ctor "H").run [.addRoom 101 "Deluxe"]).checkoutRoom 101).result = .ok () ∧
    (((Hotel.ctor "H").run [.addRoom 101 "Deluxe"]).checkoutRoom 101).cout =
      "Room is already available, can't checkout from an unoccupied room! \n \n" ++ endl ∧
    (((Hotel.ctor "H").run [.addRoom 101 "Deluxe"]).checkoutRoom 101).state
      = (Hotel.ctor "H").run [.addRoom 101 "Deluxe"] :=
  C3_not_booked_is_printed ((Hotel.ctor "H").run [.addRoom 101 "Deluxe"]) 101 ⟨0, by decide⟩
    (by decide) (by decide)

/-- C4: a call that does not succeed, because an exception leaves it or because the room-level
`bookRoom`/`checkoutRoom` it runs is rejected, leaves the whole hotel (rooms, employees,
reservations, food orders) exactly as it was. -/
theorem C4_failed_call_changes_nothing (h : Hotel) (c : Call)
    (hfail : (h.call c).result.toBool = false ∨ h.roomLevelRejected c = true) :
    (h.call c).state = h := by
  cases c with
  | addRoom n t => simp [Hotel.call, Hotel.addRoom, Hotel.roomLevelRejected, Except.toBool] at hfail
  | addEmployee e =>
    simp [Hotel.call, Hotel.addEmployee, Hotel.roomLevelRejected, Except.toBool] at hfail
  | makeReservation g n d =>
    simp only [Hotel.call] at hfail ⊢
    cases hf : h.findRoom n with
    | none => rw [Hotel.makeReservation_none h g n d hf]
    | some p =>
      cases hb : (h.rooms.get p).isBooked with
      | true => rw [Hotel.makeReservation_booked h g n d p hf hb]
      | false =>
        rw [Hotel.makeReservation_free h g n d p hf hb] at hfail
        simp only [Hotel.roomLevelRejected, hf, Room.bookRoom, hb, Except.toBool] at hfail
        simp at hfail
  | checkoutRoom n =>
    simp only [Hotel.call] at hfail ⊢
    cases hf : h.findRoom n with
    | none => rw [Hotel.checkoutRoom_none h n hf]
    | some p =>
      cases hb : (h.rooms.get p).isBooked with
      | false => rw [Hotel.checkoutRoom_free h n p hf hb]
      | true =>
        rw [Hotel.checkoutRoom_booked h n p hf hb] at hfail
        simp only [Hotel.roomLevelRejected, hf, Room.checkoutRoom, hb, Except.toBool] at hfail
        simp at hfail
  | updateEmployeePosition i s =>
    simp only [Hotel.call, Hotel.updateEmployeePosition, Hotel.roomLevelRejected] at hfail ⊢
    split
    · next it hit => simp [hit, Except.toBool] at hfail
    · rfl
  | addFoodOrder g f q pr =>
    simp only [Hotel.call, Hotel.addFoodOrder, Hotel.roomLevelRejected] at hfail ⊢
    split
    · rfl
    · next hno => simp [hno, Except.toBool] at hfail

theorem C4_failed_call_changes_nothing_witness :
    ((Hotel.ctor "H").run [.addRoom 101 "Deluxe", .makeReservation ⟨"Ann", 30, 7⟩ 101 3]).roomLevelRejected
        (.makeReservation ⟨"Bob", 41, 8⟩ 101 1) = true ∧
    (((Hotel.ctor "H").run [.addRoom 101 "Deluxe", .makeReservation ⟨"Ann", 30, 7⟩ 101 3]).call
        (.makeReservation ⟨"Bob", 41, 8⟩ 101 1)).state
      = (Hotel.ctor "H").run [.addRoom 101 "Deluxe", .makeReservation ⟨"Ann", 30, 7⟩ 101 3] :=
  ⟨by decide,
    C4_failed_call_changes_nothing
      ((Hotel.ctor "H").run [.addRoom 101 "Deluxe", .makeReservation ⟨"Ann", 30, 7⟩ 101 3])
      (.makeReservation ⟨"Bob", 41, 8⟩ 101 1) (Or.inr (by decide))⟩

/-- C5: when the room found for number `n` is free, `makeReservation(g1, n, d1)`,
`checkoutRoom(n)`, `makeReservation(g2, n, d2)` all succeed (each returns normally and prints
its success message), and the final reservation list is the initial one followed by the entry
for `g1` and then the entry for `g2`, both pointing to that room. -/
theorem C5_rebooking_keeps_history (h : Hotel) (n : Int) (p : Fin h.rooms.length)
    (hf : h.findRoom n = some p) (hb : (h.rooms.get p).isBooked = false)
    (g1 g2 : Guest) (d1 d2 : Int) :
    (h.makeReservation g1 n d1).result = .ok () ∧
    (h.makeReservation g1 n d1).cout = green ++ "Reservation successful!\n \n" ++ reset ++ endl ∧
    ((h.makeReservation g1 n d1).state.checkoutRoom n).result = .ok () ∧
    ((h.makeReservation g1 n d1).state.checkoutRoom n).cout
      = green ++ "Room checked out successfully! \n \n" ++ reset ++ endl ∧
    (((h.makeReservation g1 n d1).state.checkoutRoom n).state.makeReservation g2 n d2).result
      = .ok () ∧
    (((h.makeReservation g1 n d1).state.checkoutRoom n).state.makeReservation g2 n d2).cout
      = green ++ "Reservation successful!\n \n" ++ reset ++ endl ∧
    (((h.makeReservation g1 n d1).state.checkoutRoom n).state.makeReservation
        g2 n d2).state.reservations
      = h.reservations ++
          [{ guest := g1, room := p.val, duration := d1 },
           { guest := g2, room := p.val, duration := d2 }] := by
  have e1 := Hotel.makeReservation_free h g1 n d1 p hf hb
  have hn := Hotel.findRoom_roomNumber h n p hf
  obtain ⟨p1, hf1, hv1, hg1⟩ :=
    Hotel.findRoom_after_set h (h.makeReservation g1 n d1).state n p hf
      { h.rooms.get p with isBooked := true, guestID := g1.guestID } hn (by rw [e1])
  have hb1 : ((h.makeReservation g1 n d1).state.rooms.get p1).isBooked = true := by rw [hg1]
  have e2 := Hotel.checkoutRoom_booked _ n p1 hf1 hb1
  obtain ⟨p2, hf2, hv2, hg2⟩ :=
    Hotel.findRoom_after_set _ ((h.makeReservation g1 n d1).state.checkoutRoom n).state n p1 hf1
      { (h.makeReservation g1 n d1).state.rooms.get p1 with isBooked := false, guestID := -1 }
      (by rw [hg1]; exact hn) (by rw [e2])
  have hb2 : (((h.makeReservation g1 n d1).state.checkoutRoom n).state.rooms.get p2).isBooked
      = false := by rw [hg2]
  have e3 := Hotel.makeReservation_free _ g2 n d2 p2 hf2 hb2
  have r1 : (h.makeReservation g1 n d1).state.reservations
      = h.reservations ++ [{ guest := g1, room := p.val, duration := d1 }] :=
    congrArg (fun e => e.state.reservations) e1
  have r2 : ((h.makeReservation g1 n d1).state.checkoutRoom n).state.reservations
      = (h.makeReservation g1 n d1).state.reservations :=
    congrArg (fun e => e.state.reservations) e2
  have r3 : (((h.makeReservation g1 n d1).state.checkoutRoom n).state.makeReservation
        g2 n d2).state.reservations
      = ((h.makeReservation g1 n d1).state.checkoutRoom n).state.reservations
          ++ [{ guest := g2, room := p2.val, duration := d2 }] :=
    congrArg (fun e => e.state.reservations) e3
  refine ⟨congrArg (fun e => e.result) e1, congrArg (fun e => e.cout) e1,
    congrArg (fun e => e.result) e2, congrArg (fun e => e.cout) e2,
    congrArg (fun e => e.result) e3, congrArg (fun e => e.cout) e3, ?_⟩
  rw [r3, r2, r1, hv2, hv1, List.append_assoc]
  rfl

theorem C5_rebooking_keeps_history_witness :
    ((((Hotel.ctor "H").run [.addRoom 101 "Deluxe"]).makeReservation ⟨"Ann", 30, 7⟩ 101 3).result
      = .ok ()) ∧
    ((((Hotel.ctor "H").run [.addRoom 101 "Deluxe"]).makeReservation ⟨"Ann", 30, 7⟩ 101 3).cout
      = green ++ "Reservation successful!\n \n" ++ reset ++ endl) ∧
    (((((Hotel.ctor "H").run [.addRoom 101 "Deluxe"]).makeReservation
        ⟨"Ann", 30, 7⟩ 101 3).state.checkoutRoom 101).result = .ok ()) ∧
    (((((Hotel.ctor "H").run [.addRoom 101 "Deluxe"]).makeReservation
        ⟨"Ann", 30, 7⟩ 101 3).state.checkoutRoom 101).cout
      = green ++ "Room checked out successfully! \n \n" ++ reset ++ endl) ∧
    ((((((Hotel.ctor "H").run [.addRoom 101 "Deluxe"]).makeReservation
        ⟨"Ann", 30, 7⟩ 101 3).state.checkoutRoom 101).state.makeReservation
          ⟨"Bob", 41, 8⟩ 101 1).result = .ok ()) ∧
    ((((((Hotel.ctor "H").run [.addRoom 101 "Deluxe"]).makeReservation
        ⟨"Ann", 30, 7⟩ 101 3).state.checkoutRoom 101).state.makeReservation
          ⟨"Bob", 41, 8⟩ 101 1).cout
      = green ++ "Reservation successful!\n \n" ++ reset ++ endl) ∧
    ((((((Hotel.ctor "H").run [.addRoom 101 "Deluxe"]).makeReservation
        ⟨"Ann", 30, 7⟩ 101 3).state.checkoutRoom 101).state.makeReservation
          ⟨"Bob", 41, 8⟩ 101 1).state.reservations
      = [{ guest := ⟨"Ann", 30, 7⟩, room := 0, duration := 3 },
         { guest := ⟨"Bob", 41, 8⟩, room := 0, duration := 1 }]) :=
  C5_rebooking_keeps_history ((Hotel.ctor "H").run [.addRoom 101 "Deluxe"]) 101 ⟨0, by decide⟩
    (by decide) (by decide) ⟨"Ann", 30, 7⟩ ⟨"Bob", 41, 8⟩ 3 1

/-- C6: `addFoodOrder` succeeds exactly when some room is booked with the guest's identifier
as occupant. Otherwise it throws the `HotelException` "Guest Id not found in any booked
room..." and changes nothing; when it succeeds it appends exactly one order holding
`(guest, item, qty, price)` at the end of the order list and changes nothing else. -/
theorem C6_food_order_iff_checked_in (h : Hotel) (g : Guest) (item : String) (qty : Int)
    (price : Float) :
    ((h.addFoodOrder g item qty price).result = .ok () ↔
      ∃ r ∈ h.rooms, r.isBooked = true ∧ r.guestID = g.guestID) ∧
    ((¬ ∃ r ∈ h.rooms, r.isBooked = true ∧ r.guestID = g.guestID) →
      (h.addFoodOrder g item qty price).result = .error (.HotelException
        "Guest Id not found in any booked room. Unable to place food order. \n \n") ∧
      (h.addFoodOrder g item qty price).state.foodOrders = h.foodOrders ∧
      (h.addFoodOrder g item qty price).state = h) ∧
    ((∃ r ∈ h.rooms, r.isBooked = true ∧ r.guestID = g.guestID) →
      (h.addFoodOrder g item qty price).state.foodOrders =
        h.foodOrders ++ [{ guest := g, foodItem := item, quantity := qty, price := price }] ∧
      (h.addFoodOrder g item qty price).state.rooms = h.rooms ∧
      (h.addFoodOrder g item qty price).state.employees = h.employees ∧
      (h.addFoodOrder g item qty price).state.reservations = h.reservations) := by
  refine ⟨?_, ?_, ?_⟩
  · by_cases hin : ∃ r ∈ h.rooms, r.isBooked = true ∧ r.guestID = g.guestID
    · rw [Hotel.addFoodOrder_checked_in h g item qty price hin]
      simp only [true_iff]
      exact hin
    · rw [Hotel.addFoodOrder_absent h g item qty price hin]
      simp only [reduceCtorEq, false_iff]
      exact hin
  · intro hout
    rw [Hotel.addFoodOrder_absent h g item qty price hout]
    exact ⟨rfl, rfl, rfl⟩
  · intro hin
    rw [Hotel.addFoodOrder_checked_in h g item qty price hin]
    exact ⟨rfl, rfl, rfl, rfl⟩

/-- C7: if `makeReservation(g, n, d)` succeeds, then in the state it leaves `addFoodOrder`
succeeds for every guest value with the identifier of `g` and every item, quantity and price,
and the new order is the last element of the order list. -/
theorem C7_order_after_reservation (h : Hotel) (g : Guest) (n d : Int)
    (hok : (h.makeReservation g n d).result = .ok ())
    (g1 : Guest) (hid : g1.guestID = g.guestID) (item : String) (qty : Int) (price : Float) :
    ((h.makeReservation g n d).state.addFoodOrder g1 item qty price).result = .ok () ∧
    ((h.makeReservation g n d).state.addFoodOrder g1 item qty price).state.foodOrders
      = (h.makeReservation g n d).state.foodOrders ++
          [{ guest := g1, foodItem := item, quantity := qty, price := price }] ∧
    ((h.makeReservation g n d).state.addFoodOrder g1 item qty price).state.foodOrders.getLast?
      = some { guest := g1, foodItem := item, quantity := qty, price := price } := by
  obtain ⟨p, hf, hb⟩ := (Hotel.makeReservation_ok_iff h g n d).mp hok
  have hn := Hotel.findRoom_roomNumber h n p hf
  obtain ⟨p1, _, _, hg1⟩ :=
    Hotel.findRoom_after_set h (h.makeReservation g n d).state n p hf
      { h.rooms.get p with isBooked := true, guestID := g.guestID } hn
      (by rw [Hotel.makeReservation_free h g n d p hf hb])
  have hin : ∃ r ∈ (h.makeReservation g n d).state.rooms,
      r.isBooked = true ∧ r.guestID = g1.guestID :=
    ⟨_, List.get_mem _ p1.val p1.isLt, by rw [hg1], by rw [hg1, hid]⟩
  rw [Hotel.addFoodOrder_checked_in _ g1 item qty price hin]
  refine ⟨rfl, rfl, ?_⟩
  simp

theorem C7_order_after_reservation_witness :
    ((((Hotel.ctor "H").run [.addRoom 101 "Deluxe"]).makeReservation
        ⟨"Ann", 30, 7⟩ 101 3).state.addFoodOrder ⟨"", 0, 7⟩ "Coffee" 2 150.0).result = .ok () ∧
    ((((Hotel.ctor "H").run [.addRoom 101 "Deluxe"]).makeReservation
        ⟨"Ann", 30, 7⟩ 101 3).state.addFoodOrder ⟨"", 0, 7⟩ "Coffee" 2 150.0).state.foodOrders
      = (((Hotel.ctor "H").run [.addRoom 101 "Deluxe"]).makeReservation
          ⟨"Ann", 30, 7⟩ 101 3).state.foodOrders ++
          [{ guest := ⟨"", 0, 7⟩, foodItem := "Coffee", quantity := 2, price := 150.0 }] ∧
    ((((Hotel.ctor "H").run [.addRoom 101 "Deluxe"]).makeReservation
        ⟨"Ann", 30, 7⟩ 101 3).state.addFoodOrder
          ⟨"", 0, 7⟩ "Coffee" 2 150.0).state.foodOrders.getLast?
      = some { guest := ⟨"", 0, 7⟩, foodItem := "Coffee", quantity := 2, price := 150.0 } :=
  C7_order_after_reservation ((Hotel.ctor "H").run [.addRoom 101 "Deluxe"]) ⟨"Ann", 30, 7⟩ 101 3
    rfl ⟨"", 0, 7⟩ rfl "Coffee" 2 150.0

/-- C8: `makeReservation(g, n, d)` succeeds exactly when the room found for `n` exists and is
free. Its effect then: that room gets flag `true` and occupant `g.guestID` (number and type
kept), every other room is unchanged, one `Reservation` holding `(g, that room, d)` is appended
at the end of the reservation list, and name, employees and orders are unchanged. -/
theorem C8_reservation_effect (h : Hotel) (g : Guest) (n d : Int) :
    ((h.makeReservation g n d).result = .ok () ↔
      ∃ p, h.findRoom n = some p ∧ (h.rooms.get p).isBooked = false) ∧
    (∀ p, h.findRoom n = some p → (h.rooms.get p).isBooked = false →
      (h.makeReservation g n d).state.rooms =
        h.rooms.set p.val { h.rooms.get p with isBooked := true, guestID := g.guestID } ∧
      (h.makeReservation g n d).state.rooms[p.val]? =
        some { h.rooms.get p with isBooked := true, guestID := g.guestID } ∧
      (∀ j, j ≠ p.val → (h.makeReservation g n d).state.rooms[j]? = h.rooms[j]?) ∧
      (h.makeReservation g n d).state.reservations =
        h.reservations ++ [{ guest := g, room := p.val, duration := d }] ∧
      (h.makeReservation g n d).state.employees = h.employees ∧
      (h.makeReservation g n d).state.foodOrders = h.foodOrders ∧
      (h.makeReservation g n d).state.hotelName = h.hotelName) := by
  refine ⟨Hotel.makeReservation_ok_iff h g n d, ?_⟩
  intro p hf hb
  rw [Hotel.makeReservation_free h g n d p hf hb]
  refine ⟨rfl, ?_, ?_, rfl, rfl, rfl, rfl⟩
  · simp
  · intro j hj
    simp only
    rw [List.getElem?_set_ne (Ne.symm hj)]

theorem C8_reservation_effect_witness :
    (((Hotel.ctor "H").run [.addRoom 101 "Deluxe", .addRoom 102 "Suite"]).makeReservation
        ⟨"Ann", 30, 7⟩ 102 3).state.rooms =
      ((Hotel.ctor "H").run [.addRoom 101 "Deluxe", .addRoom 102 "Suite"]).rooms.set 1
        ⟨102, "Suite", true, 7⟩ ∧
    (((Hotel.ctor "H").run [.addRoom 101 "Deluxe", .addRoom 102 "Suite"]).makeReservation
        ⟨"Ann", 30, 7⟩ 102 3).state.reservations = [⟨⟨"Ann", 30, 7⟩, 1, 3⟩] :=
  have w := (C8_reservation_effect
    ((Hotel.ctor "H").run [.addRoom 101 "Deluxe", .addRoom 102 "Suite"]) ⟨"Ann", 30, 7⟩ 102 3).2
      ⟨1, by decide⟩ (by decide) (by decide)
  ⟨w.1, w.2.2.2.1⟩

/-- C9: `makeReservation(g, n, d)` and `checkoutRoom(n)` each throw the `HotelException`
"Room not found!" to their caller exactly when no room has number `n`, and then the hotel is
unchanged. -/
theorem C9_room_not_found (h : Hotel) (g : Guest) (n d : Int) :
    ((h.makeReservation g n d).result = .error (.HotelException "Room not found! \n \n") ↔
      ∀ r ∈ h.rooms, r.roomNumber ≠ n) ∧
    ((h.checkoutRoom n).result = .error (.HotelException "Room not found! \n \n") ↔
      ∀ r ∈ h.rooms, r.roomNumber ≠ n) ∧
    ((∀ r ∈ h.rooms, r.roomNumber ≠ n) →
      (h.makeReservation g n d).state = h ∧ (h.checkoutRoom n).state = h) := by
  rw [← Hotel.findRoom_eq_none_iff]
  refine ⟨?_, ?_, ?_⟩
  · cases hf : h.findRoom n with
    | none => simp [Hotel.makeReservation_none h g n d hf]
    | some p =>
      cases hb : (h.rooms.get p).isBooked with
      | true => simp [Hotel.makeReservation_booked h g n d p hf hb]
      | false => simp [Hotel.makeReservation_free h g n d p hf hb]
  · cases hf : h.findRoom n with
    | none => simp [Hotel.checkoutRoom_none h n hf]
    | some p =>
      cases hb : (h.rooms.get p).isBooked with
      | true => simp [Hotel.checkoutRoom_booked h n p hf hb]
      | false => simp [Hotel.checkoutRoom_free h n p hf hb]
  · intro hf
    rw [Hotel.makeReservation_none h g n d hf, Hotel.checkoutRoom_none h n hf]
    exact ⟨rfl, rfl⟩

/-- C10: when the room found for number `n` is booked, `checkoutRoom(n)` succeeds and changes
only that room, whose flag becomes `false` and whose occupant becomes `-1`; every other room,
the reservation list, the food-order list, the employee list and the name are unchanged. -/
theorem C10_checkout_effect (h : Hotel) (n : Int) (p : Fin h.rooms.length)
    (hf : h.findRoom n = some p) (hb : (h.rooms.get p).isBooked = true) :
    (h.checkoutRoom n).result = .ok () ∧
    (h.checkoutRoom n).cout = green ++ "Room checked out successfully! \n \n" ++ reset ++ endl ∧
    (h.checkoutRoom n).state.rooms =
      h.rooms.set p.val { h.rooms.get p with isBooked := false, guestID := -1 } ∧
    (h.checkoutRoom n).state.rooms[p.val]? =
      some { h.rooms.get p with isBooked := false, guestID := -1 } ∧
    (∀ j, j ≠ p.val → (h.checkoutRoom n).state.rooms[j]? = h.rooms[j]?) ∧
    (h.checkoutRoom n).state.reservations = h.reservations ∧
    (h.checkoutRoom n).state.foodOrders = h.foodOrders ∧
    (h.checkoutRoom n).state.employees = h.employees ∧
    (h.checkoutRoom n).state.hotelName = h.hotelName := by
  rw [Hotel.checkoutRoom_booked h n p hf hb]
  refine ⟨rfl, rfl, rfl, ?_, ?_, rfl, rfl, rfl, rfl⟩
  · simp
  · intro j hj
    simp only
    rw [List.getElem?_set_ne (Ne.symm hj)]

theorem C10_checkout_effect_witness :
    (((Hotel.ctor "H").run
        [.addRoom 101 "Deluxe", .addRoom 102 "Suite", .makeReservation ⟨"Ann", 30, 7⟩ 101 3,
          .addFoodOrder ⟨"", 0, 7⟩ "Coffee" 2 150.0]).checkoutRoom 101).result = .ok () ∧
    (((Hotel.ctor "H").run
        [.addRoom 101 "Deluxe", .addRoom 102 "Suite", .makeReservation ⟨"Ann", 30, 7⟩ 101 3,
          .addFoodOrder ⟨"", 0, 7⟩ "Coffee" 2 150.0]).checkoutRoom 101).state.rooms[0]?
      = some ⟨101, "Deluxe", false, -1⟩ ∧
    (((Hotel.ctor "H").run
        [.addRoom 101 "Deluxe", .addRoom 102 "Suite", .makeReservation ⟨"Ann", 30, 7⟩ 101 3,
          .addFoodOrder ⟨"", 0, 7⟩ "Coffee" 2 150.0]).checkoutRoom 101).state.reservations
      = [⟨⟨"Ann", 30, 7⟩, 0, 3⟩] ∧
    (((Hotel.ctor "H").run
        [.addRoom 101 "Deluxe", .addRoom 102 "Suite", .makeReservation ⟨"Ann", 30, 7⟩ 101 3,
          .addFoodOrder ⟨"", 0, 7⟩ "Coffee" 2 150.0]).checkoutRoom 101).state.foodOrders
      = [{ guest := ⟨"", 0, 7⟩, foodItem := "Coffee", quantity := 2, price := 150.0 }] :=
  have w := C10_checkout_effect
    ((Hotel.ctor "H").run
      [.addRoom 101 "Deluxe", .addRoom 102 "Suite", .makeReservation ⟨"Ann", 30, 7⟩ 101 3,
        .addFoodOrder ⟨"", 0, 7⟩ "Coffee" 2 150.0]) 101 ⟨0, by decide⟩ (by decide) (by decide)
  ⟨w.1, w.2.2.2.1, w.2.2.2.2.2.1, w.2.2.2.2.2.2.1⟩

/-- C11: when no employee has identifier `id`, `updateEmployeePosition(id, newPosition)` throws
the `HotelException` "Employee not found!" and leaves the employee list, and with it the whole
hotel (rooms, reservations, orders), unchanged. -/
theorem C11_employee_not_found (h : Hotel) (id : Int) (newPosition : String)
    (habs : ∀ e ∈ h.employees, e.employeeID ≠ id) :
    (h.updateEmployeePosition id newPosition).result
      = .error (.HotelException "Employee not found! \n \n") ∧
    (h.updateEmployeePosition id newPosition).state.employees = h.employees ∧
    (h.updateEmployeePosition id newPosition).state = h := by
  have hf : find_if (fun employee => employee.getEmployeeID == id) h.employees = none := by
    rw [find_if_eq_none_iff]
    intro e he
    simpa [Employee.getEmployeeID] using habs e he
  rw [Hotel.updateEmployeePosition_none h id newPosition hf]
  exact ⟨rfl, rfl, rfl⟩

theorem C11_employee_not_found_witness :
    (((Hotel.ctor "H").run [.addEmployee ⟨"Eve", 40, 5, "Clerk"⟩]).updateEmployeePosition
        6 "Manager").result = .error (.HotelException "Employee not found! \n \n") ∧
    (((Hotel.ctor "H").run [.addEmployee ⟨"Eve", 40, 5, "Clerk"⟩]).updateEmployeePosition
        6 "Manager").state.employees = [⟨"Eve", 40, 5, "Clerk"⟩] ∧
    (((Hotel.ctor "H").run [.addEmployee ⟨"Eve", 40, 5, "Clerk"⟩]).updateEmployeePosition
        6 "Manager").state = (Hotel.ctor "H").run [.addEmployee ⟨"Eve", 40, 5, "Clerk"⟩] :=
  C11_employee_not_found ((Hotel.ctor "H").run [.addEmployee ⟨"Eve", 40, 5, "Clerk"⟩]) 6 "Manager"
    (by decide)

/-- C12: `Room::bookRoom` throws a `HotelException` exactly when the room is booked and
`Room::checkoutRoom` exactly when it is not; a call that throws leaves the room unchanged; a
successful `bookRoom` sets the flag and keeps every other field; a successful `checkoutRoom`
clears the flag, sets the occupant to `-1` and keeps number and type. -/
theorem C12_room_state_machine (r : Room) :
    ((∃ what, r.bookRoom.result = .error (.HotelException what)) ↔ r.isBooked = true) ∧
    ((∃ what, r.checkoutRoom.result = .error (.HotelException what)) ↔ r.isBooked = false) ∧
    ((∃ e, r.bookRoom.result = .error e) → r.bookRoom.state = r) ∧
    ((∃ e, r.checkoutRoom.result = .error e) → r.checkoutRoom.state = r) ∧
    (r.bookRoom.result = .ok () ↔ r.isBooked = false) ∧
    (r.checkoutRoom.result = .ok () ↔ r.isBooked = true) ∧
    (r.bookRoom.result = .ok () → r.bookRoom.state = { r with isBooked := true }) ∧
    (r.checkoutRoom.result = .ok () →
      r.checkoutRoom.state = { r with isBooked := false, guestID := -1 }) := by
  cases hb : r.isBooked <;> simp [Room.bookRoom, Room.checkoutRoom, hb]

/-- C15: `addRoom(number, type)` always succeeds, also when the number is already in use; it
appends one room with that number and type, flag `false` and occupant `-1` at the end of the
room list and changes nothing else. -/
theorem C15_addRoom_appends (h : Hotel) (number : Int) (type : String) :
    (h.addRoom number type).result = .ok () ∧
    (h.addRoom number type).state.rooms =
      h.rooms ++ [{ roomNumber := number, roomType := type, isBooked := false, guestID := -1 }] ∧
    (∀ (i : Nat) (r : Room),
      h.rooms[i]? = some r → (h.addRoom number type).state.rooms[i]? = some r) ∧
    (h.addRoom number type).state.employees = h.employees ∧
    (h.addRoom number type).state.reservations = h.reservations ∧
    (h.addRoom number type).state.foodOrders = h.foodOrders ∧
    (h.addRoom number type).state.hotelName = h.hotelName := by
  refine ⟨rfl, rfl, ?_, rfl, rfl, rfl, rfl⟩
  intro i r hi
  have hlt : i < h.rooms.length := (List.getElem?_eq_some.mp hi).1
  simp only [Hotel.addRoom]
  rw [List.getElem?_append_left hlt]
  exact hi

/-- C16: the check that `FoodOrder::display` runs, `placeOrder(guest.getGuestID())`, never
throws: `placeOrder` accepts exactly the identifier of the stored guest, and `display` passes
that identifier. So `display` never prints the error text, always writes the order, and no
exception leaves it. -/
theorem C16_display_check_never_fails (o : FoodOrder) (showDouble : Float → String)
    (localTime : tm) :
    (∀ guestID, (o.placeOrder guestID).result = .ok () ↔ guestID = o.guest.getGuestID) ∧
    (o.placeOrder o.guest.getGuestID).result = .ok () ∧
    (o.display showDouble localTime).result = .ok () ∧
    (o.display showDouble localTime).cout =
      "Food Order for: " ++ endl ++ o.guest.display ++
        ("Food Item: " ++ o.foodItem ++ ", Quantity: " ++ toString o.quantity ++
          ", Price: Rs. " ++ showDouble o.price ++ endl) ++
        FoodOrder.displayDayTime localTime := by
  refine ⟨?_, ?_, ?_, ?_⟩
  · intro guestID
    by_cases hg : guestID = o.guest.getGuestID
    · simp [FoodOrder.placeOrder, hg]
    · simp [FoodOrder.placeOrder, hg]
  · simp [FoodOrder.placeOrder]
  · simp [FoodOrder.display, FoodOrder.placeOrder]
  · simp [FoodOrder.display, FoodOrder.placeOrder]

/-- C17: when some employee has identifier `id`, `updateEmployeePosition(id, newPosition)`
succeeds and rewrites only the position of the first employee in insertion order with that
identifier: that employee keeps name, age and identifier, every other employee (also a later
one with the same identifier) is unchanged, the list keeps its length and order, and rooms,
reservations and orders are unchanged. -/
theorem C17_update_first_employee (h : Hotel) (id : Int) (newPosition : String)
    (hex : ∃ e ∈ h.employees, e.employeeID = id) :
    ∃ i : Fin h.employees.length,
      (h.employees.get i).employeeID = id ∧
      (∀ j, j < i.val → ∀ e, h.employees[j]? = some e → e.employeeID ≠ id) ∧
      (h.updateEmployeePosition id newPosition).result = .ok () ∧
      (h.updateEmployeePosition id newPosition).state.employees[i.val]? =
        some { h.employees.get i with position := newPosition } ∧
      (∀ j, j ≠ i.val →
        (h.updateEmployeePosition id newPosition).state.employees[j]? = h.employees[j]?) ∧
      (h.updateEmployeePosition id newPosition).state.employees.length = h.employees.length ∧
      (h.updateEmployeePosition id newPosition).state.rooms = h.rooms ∧
      (h.updateEmployeePosition id newPosition).state.reservations = h.reservations ∧
      (h.updateEmployeePosition id newPosition).state.foodOrders = h.foodOrders ∧
      (h.updateEmployeePosition id newPosition).state.hotelName = h.hotelName := by
  obtain ⟨i, hf⟩ := find_if_exists (fun employee => employee.getEmployeeID == id) h.employees
    (by
      obtain ⟨e, he, hid⟩ := hex
      exact ⟨e, he, by simp [Employee.getEmployeeID, hid]⟩)
  refine ⟨i, ?_, ?_, ?_⟩
  · have := find_if_get _ h.employees i hf
    simpa [Employee.getEmployeeID] using this
  · intro j hj e he
    have := find_if_first _ h.employees i hf j hj e he
    simpa [Employee.getEmployeeID] using this
  · rw [Hotel.updateEmployeePosition_some h id newPosition i hf]
    refine ⟨rfl, ?_, ?_, ?_, rfl, rfl, rfl, rfl⟩
    · simp
    · intro j hj
      simp only
      rw [List.getElem?_set_ne (Ne.symm hj)]
    · simp

theorem C17_update_first_employee_witness :
    (∃ e ∈ ((Hotel.ctor "H").run
        [.addEmployee ⟨"Eve", 40, 5, "Clerk"⟩, .addEmployee ⟨"Dan", 35, 5, "Porter"⟩]).employees,
      e.employeeID = 5) ∧
    (((Hotel.ctor "H").run
        [.addEmployee ⟨"Eve", 40, 5, "Clerk"⟩,
          .addEmployee ⟨"Dan", 35, 5, "Porter"⟩]).updateEmployeePosition 5 "Manager").result
      = .ok () :=
  ⟨by decide,
    (C17_update_first_employee
      ((Hotel.ctor "H").run
        [.addEmployee ⟨"Eve", 40, 5, "Clerk"⟩, .addEmployee ⟨"Dan", 35, 5, "Porter"⟩])
      5 "Manager" (by decide)).elim (fun _ hi => hi.2.2.1)⟩

/-- C13: a room that is booked before a call is, after the call, still the same room with the
same flag and occupant, unless the call is a `checkoutRoom` that finds exactly this room and
succeeds. In particular `addRoom`, `addEmployee`, `makeReservation`, `updateEmployeePosition`
and `addFoodOrder` never change a booked room, whatever their arguments and outcome. -/
theorem C13_no_double_booking (h : Hotel) (c : Call) (i : Nat) (r : Room)
    (hr : h.rooms[i]? = some r) (hb : r.isBooked = true) :
    ((∀ n, c ≠ .checkoutRoom n) → (h.call c).state.rooms[i]? = some r) ∧
    ((h.call c).state.rooms[i]? ≠ some r →
      ∃ n p, c = .checkoutRoom n ∧ h.findRoom n = some p ∧ p.val = i ∧
        (h.call c).result = .ok () ∧
        (h.call c).cout = green ++ "Room checked out successfully! \n \n" ++ reset ++ endl ∧
        (h.call c).state.rooms[i]? = some { r with isBooked := false, guestID := -1 }) := by
  have key : (h.call c).state.rooms[i]? = some r ∨
      ∃ n p, c = .checkoutRoom n ∧ h.findRoom n = some p ∧ p.val = i ∧
        (h.call c).result = .ok () ∧
        (h.call c).cout = green ++ "Room checked out successfully! \n \n" ++ reset ++ endl ∧
        (h.call c).state.rooms[i]? = some { r with isBooked := false, guestID := -1 } := by
    have hlt : i < h.rooms.length := (List.getElem?_eq_some.mp hr).1
    rcases Hotel.call_cases h c with ⟨e, _⟩ | ⟨n, t, _, e, _⟩ | ⟨g, n, d, p, _, _, hfree, e, _⟩ |
      ⟨n, p, hc, hf, _, hco, e, _⟩
    · exact Or.inl (by rw [e]; exact hr)
    · exact Or.inl (by rw [e, List.getElem?_append_left hlt]; exact hr)
    · left
      have hne : p.val ≠ i := by
        intro hpi
        have hp := List.getElem?_get_fin h.rooms p
        rw [hpi, hr, Option.some.injEq] at hp
        rw [← hp, hb] at hfree
        cases hfree
      rw [e, List.getElem?_set_ne hne]
      exact hr
    · by_cases hpi : p.val = i
      · right
        have hp := List.getElem?_get_fin h.rooms p
        rw [hpi, hr, Option.some.injEq] at hp
        refine ⟨n, p, hc, hf, hpi, ?_, ?_, ?_⟩
        · rw [hc]; simp only [Hotel.call]; rw [hco]
        · rw [hc]; simp only [Hotel.call]; rw [hco]
        · rw [e, ← hpi, ← hp]
          simp
      · left
        rw [e, List.getElem?_set_ne hpi]
        exact hr
  refine ⟨?_, ?_⟩
  · intro hnc
    rcases key with hk | ⟨n, _, hc, _⟩
    · exact hk
    · exact absurd hc (hnc n)
  · intro hchg
    rcases key with hk | hk
    · exact absurd hk hchg
    · exact hk

theorem C13_no_double_booking_witness :
    ((Hotel.ctor "H").run [.addRoom 101 "Deluxe", .makeReservation ⟨"Ann", 30, 7⟩ 101 3]).rooms[0]?
      = some ⟨101, "Deluxe", true, 7⟩ ∧
    (((Hotel.ctor "H").run [.addRoom 101 "Deluxe", .makeReservation ⟨"Ann", 30, 7⟩ 101 3]).call
        (.makeReservation ⟨"Bob", 41, 8⟩ 101 1)).state.rooms[0]? = some ⟨101, "Deluxe", true, 7⟩ :=
  ⟨by decide,
    (C13_no_double_booking
      ((Hotel.ctor "H").run [.addRoom 101 "Deluxe", .makeReservation ⟨"Ann", 30, 7⟩ 101 3])
      (.makeReservation ⟨"Bob", 41, 8⟩ 101 1) 0 ⟨101, "Deluxe", true, 7⟩ (by decide) rfl).1
      (by intro n hc; cases hc)⟩

/-- C14: for every call of a mutating operation, the reservation list before the call is an
initial segment of the list after it, and likewise the food-order list; each list gains at
most one element, at the end; a successful `makeReservation` adds exactly its reservation and
a successful `addFoodOrder` exactly its order. -/
theorem C14_append_only (h : Hotel) (c : Call) :
    h.reservations <+: (h.call c).state.reservations ∧
    h.foodOrders <+: (h.call c).state.foodOrders ∧
    ((h.call c).state.reservations = h.reservations ∨
      ∃ x, (h.call c).state.reservations = h.reservations ++ [x]) ∧
    ((h.call c).state.foodOrders = h.foodOrders ∨
      ∃ x, (h.call c).state.foodOrders = h.foodOrders ++ [x]) ∧
    (∀ g n d, c = .makeReservation g n d → (h.call c).result = .ok () →
      ∃ p, h.findRoom n = some p ∧
        (h.call c).state.reservations =
          h.reservations ++ [{ guest := g, room := p.val, duration := d }] ∧
        (h.call c).state.foodOrders = h.foodOrders) ∧
    (∀ g f q pr, c = .addFoodOrder g f q pr → (h.call c).result = .ok () →
      (h.call c).state.foodOrders =
        h.foodOrders ++ [{ guest := g, foodItem := f, quantity := q, price := pr }] ∧
      (h.call c).state.reservations = h.reservations) := by
  rcases Hotel.lists_after_call h c with ⟨er, eo, hnr, hno⟩ | ⟨g, n, d, p, hc, hf, er, eo⟩ |
    ⟨g, f, q, pr, hc, eo, er⟩
  · refine ⟨⟨[], by rw [er, List.append_nil]⟩, ⟨[], by rw [eo, List.append_nil]⟩, Or.inl er,
      Or.inl eo, ?_, ?_⟩
    · intro g n d hc hok
      exact absurd hok (hnr g n d hc)
    · intro g f q pr hc hok
      exact absurd hok (hno g f q pr hc)
  · refine ⟨⟨_, er.symm⟩, ⟨[], by rw [eo, List.append_nil]⟩, Or.inr ⟨_, er⟩, Or.inl eo, ?_, ?_⟩
    · intro g1 n1 d1 hc1 _
      rw [hc] at hc1
      cases hc1
      exact ⟨p, hf, er, eo⟩
    · intro g1 f1 q1 pr1 hc1
      rw [hc] at hc1
      cases hc1
  · refine ⟨⟨[], by rw [er, List.append_nil]⟩, ⟨_, eo.symm⟩, Or.inl er, Or.inr ⟨_, eo⟩, ?_, ?_⟩
    · intro g1 n1 d1 hc1
      rw [hc] at hc1
      cases hc1
    · intro g1 f1 q1 pr1 hc1 _
      rw [hc] at hc1
      cases hc1
      exact ⟨eo, er⟩

/-- C18: in every state reached from an empty hotel, every booked room is pointed to by at
least one reservation, and the last reservation in the list that points to it carries a guest
whose identifier equals the current occupant of the room. -/
theorem C18_booked_rooms_are_referenced (name : String) (calls : List Call) (i : Nat) (r : Room) :
    ((Hotel.ctor name).run calls).rooms[i]? = some r → r.isBooked = true →
      (∃ res ∈ ((Hotel.ctor name).run calls).reservations, res.room = i) ∧
      ∃ res, (((Hotel.ctor name).run calls).reservations.filter
          (fun x => x.room == i)).getLast? = some res ∧ res.guest.guestID = r.guestID := by
  intro hr hb
  have hinv : ((Hotel.ctor name).run calls).bookingsReferenced := by
    apply Hotel.bookingsReferenced_run
    intro j x hx
    simp [Hotel.ctor] at hx
  obtain ⟨res, hres, hg⟩ := hinv i r hr hb
  refine ⟨⟨res, ?_⟩, res, hres, hg⟩
  have hmem := List.mem_of_getLast?_eq_some hres
  rw [List.mem_filter] at hmem
  exact ⟨hmem.1, by simpa using hmem.2⟩

/-- C20: in every state reached from an empty hotel by any sequence of calls, with arbitrary
guest identifiers and whether the calls succeed or are rejected, every room whose booking flag
is off has occupant `-1`. -/
theorem C20_free_rooms_have_no_occupant (name : String) (calls : List Call) :
    ((Hotel.ctor name).run calls).freeRoomsUnoccupied ∧
    ∀ r ∈ ((Hotel.ctor name).run calls).rooms, r.isBooked = false → r.guestID = -1 := by
  have hinv : ((Hotel.ctor name).run calls).freeRoomsUnoccupied := by
    apply Hotel.freeRoomsUnoccupied_run
    intro r hr
    simp [Hotel.ctor] at hr
  exact ⟨hinv, hinv⟩

theorem C18_booked_rooms_are_referenced_witness :
    (∃ res ∈ ((Hotel.ctor "H").run
        [.addRoom 101 "Deluxe", .makeReservation ⟨"Ann", 30, 7⟩ 101 3, .checkoutRoom 101,
          .makeReservation ⟨"Bob", 41, 8⟩ 101 1]).reservations, res.room = 0) ∧
    ∃ res, (((Hotel.ctor "H").run
        [.addRoom 101 "Deluxe", .makeReservation ⟨"Ann", 30, 7⟩ 101 3, .checkoutRoom 101,
          .makeReservation ⟨"Bob", 41, 8⟩ 101 1]).reservations.filter
            (fun x => x.room == 0)).getLast? = some res ∧
      res.guest.guestID = (⟨101, "Deluxe", true, 8⟩ : Room).guestID :=
  C18_booked_rooms_are_referenced "H"
    [.addRoom 101 "Deluxe", .makeReservation ⟨"Ann", 30, 7⟩ 101 3, .checkoutRoom 101,
      .makeReservation ⟨"Bob", 41, 8⟩ 101 1] 0 ⟨101, "Deluxe", true, 8⟩ (by decide) rfl

/-- C19: `findRoom`, and the same search written out in `checkoutRoom`, return the first room
in insertion order with the number, and `makeReservation` and `checkoutRoom` touch no other
room. Consequently, in every state reached from an empty hotel, a room that is preceded in the
room list by a room with the same number is free, has occupant `-1`, and no reservation points
to it. -/
theorem C19_shadowed_duplicates (name : String) (calls : List Call) :
    (∀ (h : Hotel) (n : Int) (p : Fin h.rooms.length), h.findRoom n = some p →
      (h.rooms.get p).roomNumber = n ∧
      (∀ (k : Nat) (x : Room), k < p.val → h.rooms[k]? = some x → x.roomNumber ≠ n) ∧
      find_if (fun room => room.getRoomNumber == n) h.rooms = some p ∧
      (∀ (g : Guest) (d : Int) (k : Nat), k ≠ p.val →
        (h.makeReservation g n d).state.rooms[k]? = h.rooms[k]?) ∧
      (∀ (k : Nat), k ≠ p.val → (h.checkoutRoom n).state.rooms[k]? = h.rooms[k]?)) ∧
    (∀ (i j : Nat) (ri rj : Room), i < j →
      ((Hotel.ctor name).run calls).rooms[i]? = some ri →
      ((Hotel.ctor name).run calls).rooms[j]? = some rj →
      ri.roomNumber = rj.roomNumber →
      rj.isBooked = false ∧ rj.guestID = -1 ∧
        ∀ res ∈ ((Hotel.ctor name).run calls).reservations, res.room ≠ j) := by
  refine ⟨?_, ?_⟩
  · intro h n p hf
    refine ⟨Hotel.findRoom_roomNumber h n p hf,
      fun k x hk hx => Hotel.findRoom_first h n p hf k x hk hx, hf, ?_, ?_⟩
    · intro g d k hk
      cases hb : (h.rooms.get p).isBooked with
      | true => rw [Hotel.makeReservation_booked h g n d p hf hb]
      | false =>
        rw [Hotel.makeReservation_free h g n d p hf hb]
        simp only
        rw [List.getElem?_set_ne (Ne.symm hk)]
    · intro k hk
      cases hb : (h.rooms.get p).isBooked with
      | true =>
        rw [Hotel.checkoutRoom_booked h n p hf hb]
        simp only
        rw [List.getElem?_set_ne (Ne.symm hk)]
      | false => rw [Hotel.checkoutRoom_free h n p hf hb]
  · have hinv := Hotel.shadowedRoomsIdle_run calls (Hotel.ctor name)
      (by intro res hres; simp [Hotel.ctor] at hres)
      (by intro i j ri rj _ hi; simp [Hotel.ctor] at hi)
    exact hinv.2
